import Mathlib

/-! # glrage: the DirectDraw surface emulation

A shallow embedding of `src/ddraw/DirectDrawSurface.cpp` and of the parts of
`src/glrage/Context.cpp` it talks to.

* Objects live in a heap: `World.surfaces` is the list of all surfaces ever
  constructed and a pointer to a surface is its index in that list.
* `DWORD` values are natural numbers; where the source computes a product or
  a complement the 32-bit wraparound is written out.
* A pixel buffer (`std::vector<uint8_t>`) is a list of bytes.
* Every call a surface makes on the `Context` or the `Renderer` that changes
  the collaborator is appended to `World.calls`, in program order.
* A method yields `none` when it is called on a pointer that is not a surface,
  and when it does not come back with a result: it takes a remainder by zero,
  shifts a 32-bit value by 32 bits or more, reads or writes outside its vector,
  or runs a loop that does not end.
-/

namespace glrage

/-! ## Constants of `ddraw.h` -/

def DDSD_CAPS : Nat := 0x1
def DDSD_HEIGHT : Nat := 0x2
def DDSD_WIDTH : Nat := 0x4
def DDSD_PITCH : Nat := 0x8
def DDSD_BACKBUFFERCOUNT : Nat := 0x20
def DDSD_LPSURFACE : Nat := 0x800
def DDSD_PIXELFORMAT : Nat := 0x1000

def DDSCAPS_BACKBUFFER : Nat := 0x4
def DDSCAPS_FLIP : Nat := 0x10
def DDSCAPS_FRONTBUFFER : Nat := 0x20
def DDSCAPS_PRIMARYSURFACE : Nat := 0x200
def DDSCAPS_VISIBLE : Nat := 0x8000
def DDSCAPS_ZBUFFER : Nat := 0x20000

/-- Largest value of a `DWORD`. -/
def DWORD_MAX : Nat := 2 ^ 32 - 1

/-- The C test `x & m` used as a condition: true when some bit of `m` is set in `x`. -/
def hasFlag (x m : Nat) : Bool := (x &&& m) != 0

/-- The C expression `~m` on a `DWORD`. -/
def bitNot (m : Nat) : Nat := DWORD_MAX ^^^ m

/-- Result codes of the surface methods. -/
inductive HRESULT where
  | DD_OK
  | DDERR_ALREADYINITIALIZED
  | DDERR_CANNOTATTACHSURFACE
  | DDERR_INVALIDOBJECT
  | DDERR_LOCKEDSURFACES
  | DDERR_NOTFLIPPABLE
  | DDERR_NOTLOCKED
  | DDERR_SURFACEBUSY
  | DDERR_SURFACENOTATTACHED
  | DDERR_UNSUPPORTED
  deriving DecidableEq, Repr

/-! ## Descriptors -/

/-- The `DDPIXELFORMAT` record. -/
structure DDPIXELFORMAT where
  dwFlags : Nat
  dwFourCC : Nat
  dwRGBBitCount : Nat
  dwRBitMask : Nat
  dwGBitMask : Nat
  dwBBitMask : Nat
  dwRGBAlphaBitMask : Nat
  deriving DecidableEq, Repr

/-- The `DDSCAPS` record. -/
structure DDSCAPS where
  dwCaps : Nat
  deriving DecidableEq, Repr

/-- The `DDSURFACEDESC` record. `lpSurface` is `none` for a null pointer and
`some i` for the address of the first byte of the buffer of surface `i`. -/
structure DDSURFACEDESC where
  dwFlags : Nat
  dwHeight : Nat
  dwWidth : Nat
  lPitch : Nat
  dwBackBufferCount : Nat
  lpSurface : Option Nat
  ddpfPixelFormat : DDPIXELFORMAT
  ddsCaps : DDSCAPS
  deriving DecidableEq, Repr

/-! ## The rendering context -/

/-- The fields of `Context` the surface code depends on. `gameID` is what
`getGameID()` returns; `m_hwnd` tells whether a window is attached and
`clientWidth`, `clientHeight` are what `GetClientRect` reports for it. -/
structure Context where
  m_render : Bool
  m_width : Nat
  m_height : Nat
  m_hwnd : Bool
  clientWidth : Nat
  clientHeight : Nat
  gameID : String
  deriving DecidableEq, Repr

/-- The method `Context::renderBegin`. -/
def Context.renderBegin (c : Context) : Context :=
  { c with m_render := true }

/-- The method `Context::isRendered`: the flag is copied to a local, the flag is
reset, and the value returned is that of the flag (not of the local). -/
def Context.isRendered (c : Context) : Bool × Context :=
  let _result := c.m_render
  let c1 := { c with m_render := false }
  (c1.m_render, c1)

/-! ## Surfaces and the world -/

/-- The data members of `DirectDrawSurface`. -/
structure DirectDrawSurface where
  m_desc : DDSURFACEDESC
  m_buffer : List Nat
  m_locked : Bool
  m_dirty : Bool
  m_backBuffer : Option Nat
  m_depthBuffer : Option Nat
  m_clipper : Option Nat
  deriving DecidableEq, Repr

/-- A call made on the `Context` or on the `Renderer` that changes the state of
the collaborator. `getGameID()` only hands out a string and is not recorded. -/
inductive Call where
  | isRendered
  | swapBuffers
  | setupViewport
  | upload (desc : DDSURFACEDESC) (buffer : List Nat)
  | render
  deriving DecidableEq, Repr

/-- The program state: the heap of surfaces, the context singleton, the
display mode reported by `DirectDraw::GetDisplayMode`, and the calls made on
the collaborators so far, oldest first. -/
structure World where
  surfaces : List DirectDrawSurface
  m_context : Context
  displayDesc : DDSURFACEDESC
  calls : List Call
  deriving DecidableEq, Repr

/-- Overwrite surface `i` by `f` of its current value. -/
def World.update (w : World) (i : Nat) (f : DirectDrawSurface → DirectDrawSurface) : World :=
  match w.surfaces[i]? with
  | some s => { w with surfaces := w.surfaces.set i (f s) }
  | none => w

/-- Record a collaborator call. -/
def World.log (w : World) (c : Call) : World :=
  { w with calls := w.calls ++ [c] }

/-! ## Construction -/

/-- Lines 22-47 of the constructor: the descriptor after the display defaults
and the pitch have been filled in. -/
def resolveDesc (displayDesc desc : DDSURFACEDESC) : DDSURFACEDESC :=
  let d0 := desc
  let d1 :=
    if !(hasFlag d0.dwFlags (DDSD_WIDTH ||| DDSD_HEIGHT)) then
      { d0 with dwWidth := displayDesc.dwWidth, dwHeight := displayDesc.dwHeight,
                dwFlags := d0.dwFlags ||| (DDSD_WIDTH ||| DDSD_HEIGHT) }
    else d0
  let d2 :=
    if !(hasFlag d1.dwFlags DDSD_PIXELFORMAT) then
      { d1 with ddpfPixelFormat := displayDesc.ddpfPixelFormat,
                dwFlags := d1.dwFlags ||| DDSD_PIXELFORMAT }
    else d1
  let d3 :=
    if !(hasFlag d2.dwFlags DDSD_PITCH) then
      { d2 with lPitch := (d2.dwWidth * (d2.ddpfPixelFormat.dwRGBBitCount / 8)) % 2 ^ 32,
                dwFlags := d2.dwFlags ||| DDSD_PITCH }
    else d2
  { d3 with lpSurface := none }

/-- The descriptor handed to the constructor of the back buffer (lines 53-58). -/
def backBufferDescOf (d : DDSURFACEDESC) : DDSURFACEDESC :=
  { d with
    ddsCaps := ⟨(d.ddsCaps.dwCaps ||| (DDSCAPS_BACKBUFFER ||| DDSCAPS_FLIP))
                  &&& bitNot (DDSCAPS_FRONTBUFFER ||| DDSCAPS_VISIBLE)⟩,
    dwFlags := d.dwFlags &&& bitNot DDSD_BACKBUFFERCOUNT,
    dwBackBufferCount := 0 }

/-- The members of a surface at the end of its constructor: descriptor `d`, a
zero-filled buffer of `lPitch * dwHeight` bytes (a `DWORD` product), and back
buffer `back`. The members the constructor does not assign keep the initial
values the rest of the class relies on: not locked, not dirty, null depth
buffer and clipper. -/
def freshSurface (d : DDSURFACEDESC) (back : Option Nat) : DirectDrawSurface :=
  { m_desc := d, m_buffer := List.replicate ((d.lPitch * d.dwHeight) % 2 ^ 32) 0,
    m_locked := false, m_dirty := false, m_backBuffer := back, m_depthBuffer := none,
    m_clipper := none }

/-- The descriptor of the owner of a back buffer (lines 61-62). -/
def frontDescOf (d : DDSURFACEDESC) : DDSURFACEDESC :=
  { d with ddsCaps :=
      ⟨d.ddsCaps.dwCaps ||| (DDSCAPS_FRONTBUFFER ||| DDSCAPS_FLIP ||| DDSCAPS_VISIBLE)⟩ }

/-- The constructor `DirectDrawSurface::DirectDrawSurface`. The new object is
appended to the heap when its constructor finishes, so a back buffer precedes
its owner. `fuel` bounds the depth of nested constructor calls. -/
def construct : Nat → World → DDSURFACEDESC → Option (World × Nat)
  | 0, _, _ => none
  | fuel + 1, w, desc =>
    let d := resolveDesc w.displayDesc desc
    if hasFlag d.dwFlags DDSD_BACKBUFFERCOUNT && decide (d.dwBackBufferCount > 0) then
      match construct fuel w (backBufferDescOf d) with
      | none => none
      | some (w1, back) =>
        some ({ w1 with surfaces := w1.surfaces ++ [freshSurface (frontDescOf d) (some back)] },
              w1.surfaces.length)
    else
      some ({ w with surfaces := w.surfaces ++ [freshSurface d none] }, w.surfaces.length)

/-! ## Lock and unlock -/

/-- The method `DirectDrawSurface::Lock` called on surface `self`. The second
component is what the call stores into `*lpDDSurfaceDesc` (`none` when it
stores nothing). `&m_buffer[0]` is the address of the first byte of the buffer
of `self`; an empty vector has no element 0, the subscript is not checked, and
what the expression then yields is the vector's data pointer, which is null.
The result is `none` when `self` is not a surface. -/
def Lock (w : World) (self : Nat) : Option (HRESULT × Option DDSURFACEDESC × World) :=
  match w.surfaces[self]? with
  | none => none
  | some s =>
    if s.m_locked then
      some (HRESULT.DDERR_SURFACEBUSY, none, w)
    else
      let d := { s.m_desc with lpSurface := (if s.m_buffer.isEmpty then none else some self),
                               dwFlags := s.m_desc.dwFlags ||| DDSD_LPSURFACE }
      let s1 := { s with m_desc := d, m_locked := true, m_dirty := true }
      some (HRESULT.DD_OK, some s1.m_desc, { w with surfaces := w.surfaces.set self s1 })

/-- The call `std::copy(first, first + n, out)` for `first` at offset `src` and
`out` at offset `dst` of the same vector: the elements are assigned one by one
from the front. The result is `none` when the range read or the range written
is not inside the vector. -/
def copyWithin (buf : List Nat) (src dst n : Nat) : Option (List Nat) :=
  if src + n ≤ buf.length ∧ dst + n ≤ buf.length then
    some ((List.range n).foldl (fun b k => b.set (dst + k) (b.getD (src + k) 0)) buf)
  else
    none

/-- The loop of lines 531-536: for `i = 0, 2, 4, ...` below `height` the row at
`i * pitch` is copied onto the row at `(i + 1) * pitch`. The two offsets are
`DWORD` products. The counter `i` is a `DWORD` as well: for a height of
`2 ^ 32 - 1` it steps from `2 ^ 32 - 2` to 0 without ever reaching the bound,
the loop does not end and there is no result; for every other height the
iterations are those for `i = 2 * k` with `k` below `(height + 1) / 2`. There is
no result either when one of the copies leaves the vector. -/
def fixBlackLines (pitch height : Nat) (buf : List Nat) : Option (List Nat) :=
  if height = 2 ^ 32 - 1 then
    none
  else
    (List.range ((height + 1) / 2)).foldlM
      (fun b k => copyWithin b ((2 * k * pitch) % 2 ^ 32) (((2 * k + 1) * pitch) % 2 ^ 32) pitch)
      buf

/-- The test `getGameID().find("tomb") != std::string::npos`. -/
def isTombGame (c : Context) : Bool :=
  decide ("tomb".toList <:+: c.gameID.toList)

/-- Lines 529-537 of `Unlock`: the scanline copy, run on surface `s` when the
game identity contains "tomb". -/
def Unlock.fixLines (c : Context) (s : DirectDrawSurface) : Option DirectDrawSurface :=
  if isTombGame c then
    (fixBlackLines s.m_desc.lPitch s.m_desc.dwHeight s.m_buffer).map
      fun b => { s with m_buffer := b }
  else
    some s

/-- Lines 539-542 of `Unlock`: surface `self` has become `s2`; present, viewport,
upload and render. -/
def Unlock.redraw (w : World) (self : Nat) (s2 : DirectDrawSurface) : World :=
  let w1 := { w with surfaces := w.surfaces.set self s2 }
  let w2 := w1.log Call.swapBuffers
  let w3 := w2.log Call.setupViewport
  let w4 := w3.log (Call.upload s2.m_desc s2.m_buffer)
  w4.log Call.render

/-- The method `DirectDrawSurface::Unlock` called on surface `self`. The result
is `none` when `self` is not a surface or when the scanline copy has no
result. -/
def Unlock (w : World) (self : Nat) : Option (HRESULT × World) :=
  match w.surfaces[self]? with
  | none => none
  | some s =>
    if !s.m_locked then
      some (HRESULT.DDERR_NOTLOCKED, w)
    else
      let d := { s.m_desc with lpSurface := none,
                               dwFlags := s.m_desc.dwFlags &&& bitNot DDSD_LPSURFACE }
      let s1 := { s with m_desc := d, m_locked := false }
      if hasFlag s1.m_desc.ddsCaps.dwCaps DDSCAPS_PRIMARYSURFACE
          && !(hasFlag s1.m_desc.ddsCaps.dwCaps DDSCAPS_FLIP) then
        (Unlock.fixLines w.m_context s1).map fun s2 => (HRESULT.DD_OK, Unlock.redraw w self s2)
      else
        some (HRESULT.DD_OK, { w with surfaces := w.surfaces.set self s1 })

/-! ## Flip -/

/-- Lines 281-283: `if (rendered) m_dirty = false`. -/
def Flip.discardDirty (rendered : Bool) (w : World) (self : Nat) : World :=
  if rendered then w.update self (fun x => { x with m_dirty := false }) else w

/-- Line 288: `m_buffer.swap(m_backBuffer->m_buffer)`. -/
def Flip.swapBuffer (w : World) (self back : Nat) : Option World := do
  let s ← w.surfaces[self]?
  let b ← w.surfaces[back]?
  pure ((w.update self (fun x => { x with m_buffer := b.m_buffer })).update back
    (fun x => { x with m_buffer := s.m_buffer }))

/-- Lines 290-292: the two dirty flags are exchanged through `dirtyTmp`. -/
def Flip.swapDirty (w : World) (self back : Nat) : Option World := do
  let s ← w.surfaces[self]?
  let dirtyTmp := s.m_dirty
  let b ← w.surfaces[back]?
  let w1 := w.update self (fun x => { x with m_dirty := b.m_dirty })
  pure (w1.update back (fun x => { x with m_dirty := dirtyTmp }))

/-- Lines 295-298: upload the surface if it is dirty, then clear the flag. -/
def Flip.uploadIfDirty (w : World) (self : Nat) : Option World := do
  let s ← w.surfaces[self]?
  if s.m_dirty then
    pure ((w.log (Call.upload s.m_desc s.m_buffer)).update self
      (fun x => { x with m_dirty := false }))
  else
    pure w

/-- Lines 302-318: present, viewport and render calls in the order chosen by
`rendered`. -/
def Flip.present (rendered : Bool) (w : World) : World :=
  let w1 := if rendered then w.log Call.swapBuffers else w
  let w2 := w1.log Call.setupViewport
  let w3 := w2.log Call.render
  if !rendered then w3.log Call.swapBuffers else w3

/-- Lines 278-320 of `DirectDrawSurface::Flip`, run on surface `self` whose
`m_backBuffer` is `back`, for the value `rendered` that `isRendered()` returned
on line 276. The statements act on the heap one after the other, so the case
where `back` is `self` is covered. -/
def FlipBody (rendered : Bool) (w : World) (self back : Nat) : Option (HRESULT × World) := do
  let w1 := Flip.discardDirty rendered w self
  let w2 ← Flip.swapBuffer w1 self back
  let w3 ← Flip.swapDirty w2 self back
  let w4 ← Flip.uploadIfDirty w3 self
  pure (HRESULT.DD_OK, Flip.present rendered w4)

/-- The method `DirectDrawSurface::Flip` called on surface `self`: the
flippability check, the consuming read of the context flag, then `FlipBody`. -/
def Flip (w : World) (self : Nat) : Option (HRESULT × World) :=
  match w.surfaces[self]? with
  | none => none
  | some s =>
    if !(hasFlag s.m_desc.ddsCaps.dwCaps DDSCAPS_FLIP)
        || !(hasFlag s.m_desc.ddsCaps.dwCaps DDSCAPS_FRONTBUFFER)
        || s.m_backBuffer.isNone then
      some (HRESULT.DDERR_NOTFLIPPABLE, w)
    else
      match s.m_backBuffer with
      | none => some (HRESULT.DDERR_NOTFLIPPABLE, w)
      | some back =>
        let (rendered, ctx) := w.m_context.isRendered
        FlipBody rendered ({ w with m_context := ctx }.log Call.isRendered) self back

/-! ## Test data -/

/-- A 32-bit pixel format. -/
def pf32 : DDPIXELFORMAT :=
  { dwFlags := 0x40, dwFourCC := 0, dwRGBBitCount := 32, dwRBitMask := 0xFF0000,
    dwGBitMask := 0xFF00, dwBBitMask := 0xFF, dwRGBAlphaBitMask := 0 }

/-- A descriptor of the given size, pitch and capabilities. -/
def mkDesc (w h pitch caps : Nat) : DDSURFACEDESC :=
  { dwFlags := DDSD_CAPS ||| DDSD_HEIGHT ||| DDSD_WIDTH ||| DDSD_PITCH ||| DDSD_PIXELFORMAT,
    dwHeight := h, dwWidth := w, lPitch := pitch, dwBackBufferCount := 0,
    lpSurface := none, ddpfPixelFormat := pf32, ddsCaps := ⟨caps⟩ }

/-- A context without a window. -/
def ctx0 (render : Bool) (game : String) : Context :=
  { m_render := render, m_width := 640, m_height := 480, m_hwnd := false,
    clientWidth := 0, clientHeight := 0, gameID := game }

/-- A small surface with the given buffer, flags and back buffer. -/
def mkSurface (caps : Nat) (buf : List Nat) (locked dirty : Bool) (back : Option Nat) :
    DirectDrawSurface :=
  { m_desc := mkDesc 1 2 2 caps, m_buffer := buf, m_locked := locked, m_dirty := dirty,
    m_backBuffer := back, m_depthBuffer := none, m_clipper := none }

/-- The descriptor of the example in the specification: 800 by 600, 32 bits,
one back buffer, on a primary surface. -/
def exampleDesc : DDSURFACEDESC :=
  { dwFlags := DDSD_CAPS ||| DDSD_HEIGHT ||| DDSD_WIDTH ||| DDSD_BACKBUFFERCOUNT
      ||| DDSD_PIXELFORMAT,
    dwHeight := 600, dwWidth := 800, lPitch := 0, dwBackBufferCount := 1,
    lpSurface := none, ddpfPixelFormat := pf32, ddsCaps := ⟨DDSCAPS_PRIMARYSURFACE⟩ }

/-- An empty world in display mode 640 by 480. -/
def emptyWorld : World :=
  { surfaces := [], m_context := ctx0 false "", displayDesc := mkDesc 640 480 2560 0,
    calls := [] }

/-! ## Specification vocabulary -/

/-- World `w1` agrees with `w` on every surface other than `self` and `b`, on the
context and on the display mode. -/
def Frame (w w1 : World) (self b : Nat) : Prop :=
  (∀ j, j ≠ self → j ≠ b → w1.surfaces[j]? = w.surfaces[j]?) ∧
  w1.m_context = w.m_context ∧ w1.displayDesc = w.displayDesc

/-- The present, viewport and render calls of a flip, in the order chosen by
the value read from `isRendered()`. -/
def presentCalls (rendered : Bool) : List Call :=
  if rendered then [Call.swapBuffers, Call.setupViewport, Call.render]
  else [Call.setupViewport, Call.render, Call.swapBuffers]

/-- A world with a front surface 0 (Primary, FrontBuffer, Flip; buffer 1,2,3,4)
whose back buffer is surface 1 (BackBuffer, Flip; buffer 5,6,7,8). -/
def flipWorld (render frontLocked frontDirty backDirty : Bool) : World :=
  { surfaces :=
      [mkSurface (DDSCAPS_PRIMARYSURFACE ||| DDSCAPS_FRONTBUFFER ||| DDSCAPS_FLIP)
         [1, 2, 3, 4] frontLocked frontDirty (some 1),
       mkSurface (DDSCAPS_BACKBUFFER ||| DDSCAPS_FLIP) [5, 6, 7, 8] false backDirty none],
    m_context := ctx0 render "", displayDesc := mkDesc 640 480 2560 0, calls := [] }

/-- A world with the single surface 0, of capabilities `caps`, 1 by 2 pixels of 2
bytes (buffer 1,2,3,4). -/
def soloWorld (caps : Nat) (locked : Bool) (game : String) : World :=
  { surfaces := [mkSurface caps [1, 2, 3, 4] locked false none],
    m_context := ctx0 false game, displayDesc := mkDesc 640 480 2560 0, calls := [] }

/-! ## Clear -/

def DDBLT_COLORFILL : Nat := 0x400
def DDBLT_DEPTHFILL : Nat := 0x2000000

/-- The value the generator of `clear` yields for element `i` of the buffer:
`colorOffset = i * 8 % dwRGBBitCount` (the product is a 32-bit one, the remainder
is taken on `DWORD`s) and the byte is `(color >> colorOffset) & 0xff`. There is
no value when the bit count is 0 (a remainder by zero) and when the offset is 32
or more (a shift of an `int32_t` by its width or more). `color` is the bit
pattern of the `int32_t` argument; for the offsets below 32, which are 0, 8, 16
and 24, the shift of the pattern and the shift of the signed value give the
same byte. -/
def clearByte (bitCount color i : Nat) : Option Nat :=
  if bitCount = 0 then
    none
  else
    let colorOffset := ((i * 8) % 2 ^ 32) % bitCount
    if colorOffset < 32 then some ((color >>> colorOffset) &&& 0xff) else none

/-- The buffer left by `clear(color)` on a surface of bit count `bitCount`:
`memset` of the low byte when the bit count is 8 or the colour is 0 (on an empty
vector `&m_buffer[0]` is the null pointer, as in `Lock`, and `memset` writes
its 0 bytes nowhere), the generated byte pattern when the bit count is a
multiple of 8 (the generator is called once for each element, from the front;
there is no result when one of the calls has none), and no change otherwise. -/
def clearBuffer (bitCount color : Nat) (buf : List Nat) : Option (List Nat) :=
  if bitCount = 8 ∨ color = 0 then
    some (List.replicate buf.length (color &&& 0xff))
  else if bitCount % 8 = 0 then
    (List.range buf.length).mapM (clearByte bitCount color)
  else
    some buf

/-- The method `DirectDrawSurface::clear` called on surface `self`. The result is
`none` when `self` is not a surface or when the generator has no result. -/
def clear (w : World) (self : Nat) (color : Nat) : Option World :=
  match w.surfaces[self]? with
  | none => none
  | some s =>
    (clearBuffer s.m_desc.ddpfPixelFormat.dwRGBBitCount color s.m_buffer).map fun buf =>
      { w with surfaces := (w.surfaces.set self { s with m_buffer := buf, m_dirty := true }) }

/-! ## The blit engine -/

/-- The conversion of a `DWORD` to `int32_t`. -/
def toInt32 (n : Nat) : Int :=
  if n % 2 ^ 32 < 2 ^ 31 then ((n % 2 ^ 32 : Nat) : Int) else ((n % 2 ^ 32 : Nat) : Int) - 2 ^ 32

/-- Modelled from the spec: the rectangle type of `Blitter`, whose header is not
among the sources (section 3: left, top, right, bottom, right and bottom
exclusive). -/
structure Blitter.Rect where
  left : Int
  top : Int
  right : Int
  bottom : Int
  deriving DecidableEq, Repr

/-- Modelled from the spec: the image view of `Blitter`, whose header is not
among the sources (section 3: width, height, bytes per pixel and the buffer it
refers to). -/
structure Blitter.Image where
  width : Int
  height : Int
  depth : Int
  buffer : List Nat
  deriving DecidableEq, Repr

/-- Modelled from the spec: a rectangle clipped against the bounds of a surface
of the given width and height (section 4.4). -/
def Blitter.clip (r : Blitter.Rect) (width height : Int) : Blitter.Rect :=
  { left := max 0 (min r.left width), top := max 0 (min r.top height),
    right := max 0 (min r.right width), bottom := max 0 (min r.bottom height) }

/-- Modelled from the spec: `n` bytes of `src` from offset `srcOff` written into
`dst` from offset `dstOff`; only bytes inside the two buffers take part. -/
def Blitter.copyRow (src : List Nat) (srcOff : Nat) (dst : List Nat) (dstOff n : Nat) :
    List Nat :=
  (List.range n).foldl (fun b k => b.set (dstOff + k) (src.getD (srcOff + k) 0)) dst

/-- Modelled from the spec: `Blitter::blit`, whose source is not among the
files. Both rectangles are clipped against their image, and the span common to
the two clipped rectangles is copied row by row, each image being addressed
with its own width and bytes per pixel; nothing is converted, and an empty
span copies nothing (section 4.4). The result is the destination buffer. -/
def Blitter.blit (src : Blitter.Image) (srcRect : Blitter.Rect) (dst : Blitter.Image)
    (dstRect : Blitter.Rect) : List Nat :=
  let s := Blitter.clip srcRect src.width src.height
  let d := Blitter.clip dstRect dst.width dst.height
  let cols := (min (s.right - s.left) (d.right - d.left)).toNat
  let rows := (min (s.bottom - s.top) (d.bottom - d.top)).toNat
  (List.range rows).foldl
    (fun buf y =>
      Blitter.copyRow src.buffer
        (((s.top.toNat + y) * src.width.toNat + s.left.toNat) * src.depth.toNat) buf
        (((d.top.toNat + y) * dst.width.toNat + d.left.toNat) * dst.depth.toNat)
        (cols * dst.depth.toNat))
    dst.buffer

/-! ## Blt -/

/-- Line 191: the view of the source handed to the blit engine by a blit whose
destination is `dst`. Width and height are those of `src`; the bytes per pixel
are the local `depth` of line 173, computed from the destination. -/
def Blt.srcImage (dst src : DirectDrawSurface) : Blitter.Image :=
  { width := toInt32 src.m_desc.dwWidth, height := toInt32 src.m_desc.dwHeight,
    depth := toInt32 (dst.m_desc.ddpfPixelFormat.dwRGBBitCount / 8), buffer := src.m_buffer }

/-- Line 192: the view of the destination handed to the blit engine. -/
def Blt.dstImage (dst : DirectDrawSurface) : Blitter.Image :=
  { width := toInt32 dst.m_desc.dwWidth, height := toInt32 dst.m_desc.dwHeight,
    depth := toInt32 (dst.m_desc.ddpfPixelFormat.dwRGBBitCount / 8), buffer := dst.m_buffer }

/-- Line 175 and lines 183: the full bounds of an image, the default of a
rectangle that is not given. -/
def Blt.rectOr (img : Blitter.Image) (lpRect : Option Blitter.Rect) : Blitter.Rect :=
  match lpRect with
  | some r => r
  | none => { left := 0, top := 0, right := img.width, bottom := img.height }

/-- Lines 162-194 of `Blt`: the branch taken when a source surface is given. -/
def Blt.copy (w : World) (self : Nat) (lpDestRect : Option Blitter.Rect) (srcId : Nat)
    (lpSrcRect : Option Blitter.Rect) : Option World := do
  let w1 := w.update self (fun x => { x with m_dirty := true })
  let src ← w1.surfaces[srcId]?
  let dst ← w1.surfaces[self]?
  let srcImg := Blt.srcImage dst src
  let dstImg := Blt.dstImage dst
  let buf := Blitter.blit srcImg (Blt.rectOr srcImg lpSrcRect) dstImg
    (Blt.rectOr dstImg lpDestRect)
  pure (w1.update self (fun x => { x with m_buffer := buf }))

/-- Lines 204-206 of `Blt`: `clear(lpDDBltFx->dwFillColor)` when the colour-fill
flag is set. `dwFillColor` is the field read from `*lpDDBltFx`. -/
def Blt.colorFill (w : World) (self : Nat) (dwFlags dwFillColor : Nat) : Option World :=
  if hasFlag dwFlags DDBLT_COLORFILL then clear w self dwFillColor else some w

/-- Lines 208-210 of `Blt`: `m_depthBuffer->clear(0)` when the depth-fill flag is
set and a depth buffer is attached. -/
def Blt.depthFill (w : World) (self : Nat) (dwFlags : Nat) : Option World :=
  match w.surfaces[self]? with
  | none => none
  | some s =>
    if hasFlag dwFlags DDBLT_DEPTHFILL then
      match s.m_depthBuffer with
      | some depth => clear w depth 0
      | none => some w
    else some w

/-- Lines 199-212 of `Blt`, for the value `rendered` that `isRendered()`
returned on line 199: the early return for the primary surface, then the two
fills. -/
def Blt.fill (rendered : Bool) (w : World) (self : Nat) (dwFlags dwFillColor : Nat) :
    Option (HRESULT × World) :=
  match w.surfaces[self]? with
  | none => none
  | some s =>
    if rendered && hasFlag s.m_desc.ddsCaps.dwCaps DDSCAPS_PRIMARYSURFACE then
      some (HRESULT.DD_OK, w)
    else
      (Blt.colorFill w self dwFlags dwFillColor).bind fun w1 =>
        (Blt.depthFill w1 self dwFlags).bind fun w2 => some (HRESULT.DD_OK, w2)

/-- Lines 161-195 of `Blt`: the copy when a source surface is given. -/
def Blt.copyIfSource (w : World) (self : Nat) (lpDestRect : Option Blitter.Rect)
    (lpDDSrcSurface : Option Nat) (lpSrcRect : Option Blitter.Rect) : Option World :=
  match lpDDSrcSurface with
  | some srcId => Blt.copy w self lpDestRect srcId lpSrcRect
  | none => some w

/-- The method `DirectDrawSurface::Blt` called on surface `self`, for the value
`rendered` that `isRendered()` returns on line 199: the lock check, the copy
when a source is given, the consuming read of the context flag, the fills. -/
def BltWith (rendered : Bool) (w : World) (self : Nat) (lpDestRect : Option Blitter.Rect)
    (lpDDSrcSurface : Option Nat) (lpSrcRect : Option Blitter.Rect)
    (dwFlags dwFillColor : Nat) : Option (HRESULT × World) :=
  match w.surfaces[self]? with
  | none => none
  | some s =>
    if s.m_locked then
      some (HRESULT.DDERR_LOCKEDSURFACES, w)
    else
      (Blt.copyIfSource w self lpDestRect lpDDSrcSurface lpSrcRect).bind fun w1 =>
        Blt.fill rendered
          ({ w1 with m_context := (w1.m_context.isRendered).2 }.log Call.isRendered)
          self dwFlags dwFillColor

/-- The method `DirectDrawSurface::Blt` called on surface `self`. -/
def Blt (w : World) (self : Nat) (lpDestRect : Option Blitter.Rect)
    (lpDDSrcSurface : Option Nat) (lpSrcRect : Option Blitter.Rect)
    (dwFlags dwFillColor : Nat) : Option (HRESULT × World) :=
  BltWith (w.m_context.isRendered).1 w self lpDestRect lpDDSrcSurface lpSrcRect dwFlags
    dwFillColor

/-! ## Attachments -/

/-- The method `DirectDrawSurface::AddAttachedSurface` called on surface `self`
with the pointer `lpDDSAttachedSurface` (`none` for a null pointer). -/
def AddAttachedSurface (w : World) (self : Nat) (lpDDSAttachedSurface : Option Nat) :
    Option (HRESULT × World) :=
  match lpDDSAttachedSurface with
  | none => if (w.surfaces[self]?).isSome then some (HRESULT.DDERR_INVALIDOBJECT, w) else none
  | some ps =>
    match w.surfaces[self]?, w.surfaces[ps]? with
    | some _, some p =>
      let caps := p.m_desc.ddsCaps.dwCaps
      if hasFlag caps DDSCAPS_ZBUFFER then
        some (HRESULT.DD_OK, w.update self (fun x => { x with m_depthBuffer := some ps }))
      else if hasFlag caps DDSCAPS_BACKBUFFER then
        some (HRESULT.DD_OK, w.update self (fun x => { x with m_backBuffer := some ps }))
      else
        some (HRESULT.DDERR_CANNOTATTACHSURFACE, w)
    | _, _ => none

/-- The method `DirectDrawSurface::GetAttachedSurface` called on surface `self`
with the capabilities `dwCaps` of `*lpDDSCaps`. The second component is what
the call stores into `*lplpDDAttachedSurface`: `none` when it stores nothing,
`some none` when it stores a null pointer. -/
def GetAttachedSurface (w : World) (self : Nat) (dwCaps : Nat) :
    Option (HRESULT × Option (Option Nat)) :=
  match w.surfaces[self]? with
  | none => none
  | some s =>
    if hasFlag dwCaps DDSCAPS_BACKBUFFER then
      some (HRESULT.DD_OK, some s.m_backBuffer)
    else if hasFlag dwCaps DDSCAPS_ZBUFFER then
      some (HRESULT.DD_OK, some s.m_depthBuffer)
    else
      some (HRESULT.DDERR_SURFACENOTATTACHED, none)

/-- A descriptor asking for a width of 2^30 pixels of 32 bits, one row, no
pitch given. -/
def wideDesc : DDSURFACEDESC :=
  { dwFlags := DDSD_CAPS ||| DDSD_HEIGHT ||| DDSD_WIDTH ||| DDSD_PIXELFORMAT,
    dwHeight := 1, dwWidth := 2 ^ 30, lPitch := 0, dwBackBufferCount := 0,
    lpSurface := none, ddpfPixelFormat := pf32, ddsCaps := ⟨0⟩ }

/-- A descriptor that gives only its capabilities. -/
def bareDesc (caps : Nat) : DDSURFACEDESC :=
  { dwFlags := DDSD_CAPS, dwHeight := 0, dwWidth := 0, lPitch := 0, dwBackBufferCount := 0,
    lpSurface := none, ddpfPixelFormat := pf32, ddsCaps := ⟨caps⟩ }

/-- A descriptor of a 1 by 1 surface of 32 bits with the ZBuffer capability that
asks for one back buffer. -/
def zFrontDesc : DDSURFACEDESC :=
  { dwFlags := DDSD_CAPS ||| DDSD_HEIGHT ||| DDSD_WIDTH ||| DDSD_BACKBUFFERCOUNT
      ||| DDSD_PIXELFORMAT,
    dwHeight := 1, dwWidth := 1, lPitch := 0, dwBackBufferCount := 1,
    lpSurface := none, ddpfPixelFormat := pf32, ddsCaps := ⟨DDSCAPS_ZBUFFER⟩ }

/-- The scenario: create a surface from `zFrontDesc` (its back buffer is surface
0, the surface itself is surface 1), attach surface 0 to surface 1, then ask
surface 1 for its depth buffer and for its back buffer. The result lists the
capabilities of surface 0, the result of the attach and the two answers. -/
def attachOwnBackBuffer :
    Option (Nat × HRESULT × (HRESULT × Option (Option Nat)) × (HRESULT × Option (Option Nat))) := do
  let (w1, front) ← construct 2 emptyWorld zFrontDesc
  let back ← w1.surfaces[0]?
  let (r, w2) ← AddAttachedSurface w1 front (some 0)
  let depthAnswer ← GetAttachedSurface w2 front DDSCAPS_ZBUFFER
  let backAnswer ← GetAttachedSurface w2 front DDSCAPS_BACKBUFFER
  pure (back.m_desc.ddsCaps.dwCaps, r, depthAnswer, backAnswer)

/-- A world with a front surface 0 (buffer 1,2,3,4), its back buffer 1 (buffer
5,6,7,8) and a ZBuffer surface 2 (buffer 9,9,9,9); the depth buffer of surface 0
is `frontDepth`. -/
def depthWorld (frontDepth : Option Nat) : World :=
  { surfaces :=
      [{ mkSurface (DDSCAPS_PRIMARYSURFACE ||| DDSCAPS_FRONTBUFFER ||| DDSCAPS_FLIP)
           [1, 2, 3, 4] false false (some 1) with m_depthBuffer := frontDepth },
       mkSurface (DDSCAPS_BACKBUFFER ||| DDSCAPS_FLIP) [5, 6, 7, 8] false false none,
       mkSurface DDSCAPS_ZBUFFER [9, 9, 9, 9] false false none],
    m_context := ctx0 false "", displayDesc := mkDesc 640 480 2560 0, calls := [] }

/-- The pitch, the height and the buffer length of a surface. -/
def shapeOf (s : DirectDrawSurface) : Nat × Nat × Nat :=
  (s.m_desc.lPitch, s.m_desc.dwHeight, s.m_buffer.length)

/-- World `w1` has the surfaces of `w`, each with the pitch, height and buffer
length it has in `w`. -/
def SameShapes (w w1 : World) : Prop :=
  ∀ j : Nat, (w1.surfaces[j]?).map shapeOf = (w.surfaces[j]?).map shapeOf

/-- The buffer of every surface is `lPitch * dwHeight` bytes long. -/
def BufferInv (w : World) : Prop :=
  ∀ (j : Nat) (s : DirectDrawSurface),
    w.surfaces[j]? = some s → s.m_buffer.length = s.m_desc.lPitch * s.m_desc.dwHeight

/-- A 16-bit pixel format. -/
def pf16 : DDPIXELFORMAT :=
  { dwFlags := 0x40, dwFourCC := 0, dwRGBBitCount := 16, dwRBitMask := 0xF800,
    dwGBitMask := 0x7E0, dwBBitMask := 0x1F, dwRGBAlphaBitMask := 0 }

/-- A 2 by 1 surface of 16 bits (buffer 1,2,3,4). -/
def surface16 : DirectDrawSurface :=
  { m_desc := { mkDesc 2 1 4 0 with ddpfPixelFormat := pf16 }, m_buffer := [1, 2, 3, 4],
    m_locked := false, m_dirty := false, m_backBuffer := none, m_depthBuffer := none,
    m_clipper := none }

/-- A 1 by 1 surface of 32 bits (buffer 5,6,7,8). -/
def surface32 : DirectDrawSurface :=
  { m_desc := mkDesc 1 1 4 0, m_buffer := [5, 6, 7, 8],
    m_locked := false, m_dirty := false, m_backBuffer := none, m_depthBuffer := none,
    m_clipper := none }

/-- A world with the 32-bit surface 0 (`surface32`) and the 16-bit surface 1
(`surface16`). -/
def mixedWorld : World :=
  { surfaces := [surface32, surface16], m_context := ctx0 false "",
    displayDesc := mkDesc 640 480 2560 0, calls := [] }

/-- A descriptor of a 1 by 1 primary surface of 32 bits that is a flippable
front buffer by its capabilities. -/
def smallFrontDesc : DDSURFACEDESC :=
  { dwFlags := DDSD_CAPS ||| DDSD_HEIGHT ||| DDSD_WIDTH ||| DDSD_PIXELFORMAT,
    dwHeight := 1, dwWidth := 1, lPitch := 0, dwBackBufferCount := 0, lpSurface := none,
    ddpfPixelFormat := pf32,
    ddsCaps := ⟨DDSCAPS_PRIMARYSURFACE ||| DDSCAPS_FRONTBUFFER ||| DDSCAPS_FLIP⟩ }

/-- A descriptor of a 1 by 2 surface of 32 bits with the BackBuffer capability. -/
def tallBackDesc : DDSURFACEDESC :=
  { dwFlags := DDSD_CAPS ||| DDSD_HEIGHT ||| DDSD_WIDTH ||| DDSD_PIXELFORMAT,
    dwHeight := 2, dwWidth := 1, lPitch := 0, dwBackBufferCount := 0, lpSurface := none,
    ddpfPixelFormat := pf32, ddsCaps := ⟨DDSCAPS_BACKBUFFER⟩ }

/-- A descriptor with a pitch of 2^16 bytes and 2^16 rows. -/
def hugeDesc : DDSURFACEDESC :=
  { dwFlags := DDSD_CAPS ||| DDSD_HEIGHT ||| DDSD_WIDTH ||| DDSD_PITCH ||| DDSD_PIXELFORMAT,
    dwHeight := 2 ^ 16, dwWidth := 2 ^ 14, lPitch := 2 ^ 16, dwBackBufferCount := 0,
    lpSurface := none, ddpfPixelFormat := pf32, ddsCaps := ⟨0⟩ }

/-- The scenario: create a surface from `smallFrontDesc` and one from
`tallBackDesc`, attach the second to the first and flip the first. The result
lists the result of the attach, the shapes (pitch, height, buffer length) of the
two surfaces before the flip, the result of the flip and the shapes after it. -/
def flipAttachedShapes :
    Option (HRESULT × List (Nat × Nat × Nat) × HRESULT × List (Nat × Nat × Nat)) := do
  let (w1, front) ← construct 2 emptyWorld smallFrontDesc
  let (w2, back) ← construct 2 w1 tallBackDesc
  let (r1, w3) ← AddAttachedSurface w2 front (some back)
  let (r2, w4) ← Flip w3 front
  pure (r1, w3.surfaces.map shapeOf, r2, w4.surfaces.map shapeOf)

/-! ## Bounds of the scanline copy -/

/-- Whether the loop of lines 531-536 stays inside a buffer of `len` bytes: the
iteration for `i = 2 * k` reads the `pitch` bytes from offset `i * pitch` and
writes the `pitch` bytes from offset `(i + 1) * pitch` (both offsets are `DWORD`
products). The iterations are those of `fixBlackLines`. -/
def fixBlackLinesInBounds (pitch height len : Nat) : Bool :=
  (List.range ((height + 1) / 2)).all fun k =>
    decide ((2 * k * pitch) % 2 ^ 32 + pitch ≤ len)
      && decide (((2 * k + 1) * pitch) % 2 ^ 32 + pitch ≤ len)

/-- A world with the single locked stand-alone primary surface 0 of 1 by 1
pixels and pitch 2 (buffer 1,2), under the game identity "tombati". -/
def oddHeightWorld : World :=
  { surfaces :=
      [{ m_desc := mkDesc 1 1 2 DDSCAPS_PRIMARYSURFACE, m_buffer := [1, 2], m_locked := true,
         m_dirty := true, m_backBuffer := none, m_depthBuffer := none, m_clipper := none }],
    m_context := ctx0 false "tombati", displayDesc := mkDesc 640 480 2560 0, calls := [] }

/-! ## The viewport -/

/-- The four arguments of `glViewport`. -/
structure Viewport where
  x : Nat
  y : Nat
  width : Nat
  height : Nat
  deriving DecidableEq, Repr

/-- The method `Context::getWindowWidth`: the display width when no window is
attached, the width of the client rectangle otherwise. -/
def Context.getWindowWidth (c : Context) : Nat :=
  if !c.m_hwnd then c.m_width else c.clientWidth

/-- The method `Context::getWindowHeight`. -/
def Context.getWindowHeight (c : Context) : Nat :=
  if !c.m_hwnd then c.m_height else c.clientHeight

/-- The quotient of two `UINT`s, `none` for a division by zero. -/
def udiv (a b : Nat) : Option Nat :=
  if b = 0 then none else some (a / b)

/-- The difference of two `UINT`s. -/
def usub (a b : Nat) : Nat :=
  (a % 2 ^ 32 + 2 ^ 32 - b % 2 ^ 32) % 2 ^ 32

/-- The method `Context::setupViewport`: the viewport handed to `glViewport`,
`none` when the method divides by zero. The two products are `UINT` products. -/
def Context.setupViewport (c : Context) : Option Viewport :=
  let vpWidth := c.getWindowWidth
  let vpHeight := c.getWindowHeight
  let hw := (c.m_height * vpWidth) % 2 ^ 32
  let wh := (c.m_width * vpHeight) % 2 ^ 32
  if hw > wh then
    match udiv wh c.m_height with
    | none => none
    | some wMax => some { x := usub vpWidth wMax / 2, y := 0, width := wMax, height := vpHeight }
  else if hw < wh then
    match udiv hw c.m_width with
    | none => none
    | some hMax => some { x := 0, y := usub vpHeight hMax / 2, width := vpWidth, height := hMax }
  else
    some { x := 0, y := 0, width := vpWidth, height := vpHeight }

/-- A context with display mode 640 by 480 and a window whose client area is
`cw` by `ch`. -/
def windowCtx (cw ch : Nat) : Context :=
  { m_render := false, m_width := 640, m_height := 480, m_hwnd := true,
    clientWidth := cw, clientHeight := ch, gameID := "" }

/-! ## Scenarios for Lock and Unlock -/

/-- The scenario: create a surface from `desc` in the empty world and lock it.
The result lists the index of the surface, its lock flag and its buffer before
the lock, the result of `Lock`, and of the descriptor handed back the
surface-pointer flag and the pointer. -/
def lockFresh (desc : DDSURFACEDESC) :
    Option (Nat × Bool × List Nat × HRESULT × Option (Bool × Option Nat)) := do
  let (w1, p) ← construct 2 emptyWorld desc
  let s ← w1.surfaces[p]?
  let (r, d, _) ← Lock w1 p
  pure (p, s.m_locked, s.m_buffer, r,
    d.map (fun x => (hasFlag x.dwFlags DDSD_LPSURFACE, x.lpSurface)))

/-- An empty world in display mode 640 by 480 under the game identity
"tombati". -/
def tombWorld : World :=
  { surfaces := [], m_context := ctx0 false "tombati", displayDesc := mkDesc 640 480 2560 0,
    calls := [] }

/-- A descriptor of a primary surface of `w` by `h` pixels of 32 bits that asks
for no back buffer and gives no pitch. -/
def standAloneDesc (w h : Nat) : DDSURFACEDESC :=
  { dwFlags := DDSD_CAPS ||| DDSD_HEIGHT ||| DDSD_WIDTH ||| DDSD_PIXELFORMAT,
    dwHeight := h, dwWidth := w, lPitch := 0, dwBackBufferCount := 0, lpSurface := none,
    ddpfPixelFormat := pf32, ddsCaps := ⟨DDSCAPS_PRIMARYSURFACE⟩ }

/-- The scenario: create a surface from `desc` in world `w`, lock it and unlock
it. The result lists the length of the buffer, the result of `Lock` and, when
`Unlock` has a result, that result and the number of collaborator calls made
by then. -/
def lockThenUnlock (w : World) (desc : DDSURFACEDESC) :
    Option (Nat × HRESULT × Option (HRESULT × Nat)) := do
  let (w1, p) ← construct 2 w desc
  let (r1, _, w2) ← Lock w1 p
  let s ← w2.surfaces[p]?
  pure (s.m_buffer.length, r1, (Unlock w2 p).map (fun q => (q.1, q.2.calls.length)))

/-! ## Scenarios for Blt -/

/-- A descriptor of a surface of 1 by 1 pixels with a pitch of 4 bytes whose
pixel format has the bit count 0. -/
def zeroBitDesc : DDSURFACEDESC :=
  { dwFlags := DDSD_CAPS ||| DDSD_HEIGHT ||| DDSD_WIDTH ||| DDSD_PITCH ||| DDSD_PIXELFORMAT,
    dwHeight := 1, dwWidth := 1, lPitch := 4, dwBackBufferCount := 0, lpSurface := none,
    ddpfPixelFormat := { pf32 with dwRGBBitCount := 0 }, ddsCaps := ⟨0⟩ }

/-- The scenario: create a surface from `desc` and a 1 by 1 surface of 32 bits in
the empty world, then blit the second onto the first with `flags` and the fill
colour `color`, no rectangle given. The result lists the lock flag and the
buffer of the destination before the blit and, when `Blt` has a result, that
result with the dirty flag and the buffer of the destination after it. -/
def blitOnto (desc : DDSURFACEDESC) (flags color : Nat) :
    Option (Bool × List Nat × Option (HRESULT × Option (Bool × List Nat))) := do
  let (w1, dst) ← construct 2 emptyWorld desc
  let (w2, src) ← construct 2 w1 (mkDesc 1 1 4 0)
  let s ← w2.surfaces[dst]?
  pure (s.m_locked, s.m_buffer,
    (Blt w2 dst none (some src) none flags color).map
      (fun q => (q.1, (q.2.surfaces[dst]?).map (fun x => (x.m_dirty, x.m_buffer)))))

theorem hasFlag_bit (x k : Nat) : hasFlag x (2 ^ k) = x.testBit k := by
  unfold hasFlag
  cases h : x.testBit k
  · have h0 : x &&& 2 ^ k = 0 := by
      apply Nat.eq_of_testBit_eq
      intro i
      by_cases hki : k = i
      · subst hki; simp [h]
      · simp [Nat.testBit_two_pow, hki]
    simp [h0]
  · have hne : x &&& 2 ^ k ≠ 0 := by
      intro h0
      have h1 := congrArg (fun n => Nat.testBit n k) h0
      simp [h, Nat.testBit_two_pow_self] at h1
    simpa using hne

theorem lor_eq_zero_left {a b : Nat} (h : a ||| b = 0) : a = 0 := by
  apply Nat.eq_of_testBit_eq
  intro i
  have h1 : (a ||| b).testBit i = Nat.testBit 0 i := by rw [h]
  rw [Nat.testBit_or] at h1
  cases ha : a.testBit i
  · exact (Nat.zero_testBit i).symm
  · simp [ha] at h1

theorem hasFlag_lor (x a b : Nat) : hasFlag x (a ||| b) = (hasFlag x a || hasFlag x b) := by
  unfold hasFlag
  rw [Nat.and_or_distrib_left]
  by_cases ha : x &&& a = 0
  · simp [ha]
  · have hab : ¬ (x &&& a ||| x &&& b) = 0 := fun h => ha (lor_eq_zero_left h)
    have e1 : ((x &&& a ||| x &&& b) != 0) = true := by simpa using hab
    have e2 : ((x &&& a) != 0) = true := by simpa using ha
    rw [e1, e2]
    rfl

theorem testBit_bitNot (m i : Nat) :
    (bitNot m).testBit i = (decide (i < 32) ^^ m.testBit i) := by
  show Nat.testBit ((2 ^ 32 - 1) ^^^ m) i = _
  rw [Nat.testBit_xor, Nat.testBit_two_pow_sub_one]

theorem hasFlag_DDSD_HEIGHT (x : Nat) : hasFlag x DDSD_HEIGHT = x.testBit 1 := hasFlag_bit x 1
theorem hasFlag_DDSD_WIDTH (x : Nat) : hasFlag x DDSD_WIDTH = x.testBit 2 := hasFlag_bit x 2
theorem hasFlag_DDSD_PITCH (x : Nat) : hasFlag x DDSD_PITCH = x.testBit 3 := hasFlag_bit x 3
theorem hasFlag_DDSD_BACKBUFFERCOUNT (x : Nat) :
    hasFlag x DDSD_BACKBUFFERCOUNT = x.testBit 5 := hasFlag_bit x 5
theorem hasFlag_DDSD_LPSURFACE (x : Nat) : hasFlag x DDSD_LPSURFACE = x.testBit 11 :=
  hasFlag_bit x 11
theorem hasFlag_DDSD_PIXELFORMAT (x : Nat) : hasFlag x DDSD_PIXELFORMAT = x.testBit 12 :=
  hasFlag_bit x 12
theorem hasFlag_DDSCAPS_BACKBUFFER (x : Nat) : hasFlag x DDSCAPS_BACKBUFFER = x.testBit 2 :=
  hasFlag_bit x 2
theorem hasFlag_DDSCAPS_FLIP (x : Nat) : hasFlag x DDSCAPS_FLIP = x.testBit 4 := hasFlag_bit x 4
theorem hasFlag_DDSCAPS_FRONTBUFFER (x : Nat) : hasFlag x DDSCAPS_FRONTBUFFER = x.testBit 5 :=
  hasFlag_bit x 5
theorem hasFlag_DDSCAPS_PRIMARYSURFACE (x : Nat) :
    hasFlag x DDSCAPS_PRIMARYSURFACE = x.testBit 9 := hasFlag_bit x 9
theorem hasFlag_DDSCAPS_VISIBLE (x : Nat) : hasFlag x DDSCAPS_VISIBLE = x.testBit 15 :=
  hasFlag_bit x 15
theorem hasFlag_DDSCAPS_ZBUFFER (x : Nat) : hasFlag x DDSCAPS_ZBUFFER = x.testBit 17 :=
  hasFlag_bit x 17

/-- The bits of the descriptor-flag masks used by the surface code. -/
theorem testBit_flagMasks :
    Nat.testBit 6 1 = true ∧ Nat.testBit 6 2 = true ∧ Nat.testBit 6 3 = false ∧
    Nat.testBit 6 5 = false ∧ Nat.testBit 6 11 = false ∧ Nat.testBit 6 12 = false ∧
    Nat.testBit 8 1 = false ∧ Nat.testBit 8 2 = false ∧ Nat.testBit 8 3 = true ∧
    Nat.testBit 8 5 = false ∧ Nat.testBit 8 11 = false ∧ Nat.testBit 8 12 = false ∧
    Nat.testBit 4096 1 = false ∧ Nat.testBit 4096 2 = false ∧ Nat.testBit 4096 3 = false ∧
    Nat.testBit 4096 5 = false ∧ Nat.testBit 4096 11 = false ∧ Nat.testBit 4096 12 = true ∧
    Nat.testBit 32 1 = false ∧ Nat.testBit 32 2 = false ∧ Nat.testBit 32 3 = false ∧
    Nat.testBit 32 5 = true ∧ Nat.testBit 32 11 = false ∧ Nat.testBit 32 12 = false ∧
    Nat.testBit 2048 1 = false ∧ Nat.testBit 2048 2 = false ∧ Nat.testBit 2048 3 = false ∧
    Nat.testBit 2048 5 = false ∧ Nat.testBit 2048 11 = true ∧ Nat.testBit 2048 12 = false := by
  decide

/-- The bits of the capability masks used by the surface code. -/
theorem testBit_capsMasks :
    Nat.testBit 20 2 = true ∧ Nat.testBit 20 4 = true ∧ Nat.testBit 20 5 = false ∧
    Nat.testBit 20 9 = false ∧ Nat.testBit 20 15 = false ∧ Nat.testBit 20 17 = false ∧
    Nat.testBit 32800 2 = false ∧ Nat.testBit 32800 4 = false ∧ Nat.testBit 32800 5 = true ∧
    Nat.testBit 32800 9 = false ∧ Nat.testBit 32800 15 = true ∧ Nat.testBit 32800 17 = false ∧
    Nat.testBit 32816 2 = false ∧ Nat.testBit 32816 4 = true ∧ Nat.testBit 32816 5 = true ∧
    Nat.testBit 32816 9 = false ∧ Nat.testBit 32816 15 = true ∧ Nat.testBit 32816 17 = false := by
  decide

/-! ## Facts about descriptor resolution -/

theorem resolveDesc_flags (dd d : DDSURFACEDESC) :
    hasFlag (resolveDesc dd d).dwFlags (DDSD_WIDTH ||| DDSD_HEIGHT) = true ∧
    hasFlag (resolveDesc dd d).dwFlags DDSD_PIXELFORMAT = true ∧
    hasFlag (resolveDesc dd d).dwFlags DDSD_PITCH = true ∧
    hasFlag (resolveDesc dd d).dwFlags DDSD_BACKBUFFERCOUNT
      = hasFlag d.dwFlags DDSD_BACKBUFFERCOUNT ∧
    (resolveDesc dd d).dwBackBufferCount = d.dwBackBufferCount ∧
    (resolveDesc dd d).ddsCaps = d.ddsCaps := by
  simp only [resolveDesc, hasFlag_lor, hasFlag_DDSD_WIDTH, hasFlag_DDSD_HEIGHT,
    hasFlag_DDSD_PIXELFORMAT, hasFlag_DDSD_PITCH, hasFlag_DDSD_BACKBUFFERCOUNT]
  cases h1 : d.dwFlags.testBit 1 <;> cases h2 : d.dwFlags.testBit 2 <;>
    cases h3 : d.dwFlags.testBit 3 <;> cases h12 : d.dwFlags.testBit 12 <;>
    simp [h1, h2, h3, h12, DDSD_WIDTH, DDSD_HEIGHT, DDSD_PIXELFORMAT, DDSD_PITCH,
      testBit_flagMasks]

theorem resolveDesc_of_resolved (dd d : DDSURFACEDESC)
    (h1 : hasFlag d.dwFlags (DDSD_WIDTH ||| DDSD_HEIGHT) = true)
    (h2 : hasFlag d.dwFlags DDSD_PIXELFORMAT = true)
    (h3 : hasFlag d.dwFlags DDSD_PITCH = true) :
    resolveDesc dd d = { d with lpSurface := none } := by
  simp [resolveDesc, h1, h2, h3]

theorem backBufferDescOf_flags (d : DDSURFACEDESC) :
    hasFlag (backBufferDescOf d).dwFlags (DDSD_WIDTH ||| DDSD_HEIGHT)
      = hasFlag d.dwFlags (DDSD_WIDTH ||| DDSD_HEIGHT) ∧
    hasFlag (backBufferDescOf d).dwFlags DDSD_PIXELFORMAT = hasFlag d.dwFlags DDSD_PIXELFORMAT ∧
    hasFlag (backBufferDescOf d).dwFlags DDSD_PITCH = hasFlag d.dwFlags DDSD_PITCH ∧
    hasFlag (backBufferDescOf d).dwFlags DDSD_BACKBUFFERCOUNT = false := by
  simp only [backBufferDescOf, hasFlag_lor, hasFlag_DDSD_WIDTH, hasFlag_DDSD_HEIGHT,
    hasFlag_DDSD_PIXELFORMAT, hasFlag_DDSD_PITCH, hasFlag_DDSD_BACKBUFFERCOUNT]
  simp [testBit_bitNot, DDSD_BACKBUFFERCOUNT, testBit_flagMasks]

theorem backBufferDescOf_caps (d : DDSURFACEDESC) :
    hasFlag (backBufferDescOf d).ddsCaps.dwCaps DDSCAPS_BACKBUFFER = true ∧
    hasFlag (backBufferDescOf d).ddsCaps.dwCaps DDSCAPS_FLIP = true ∧
    hasFlag (backBufferDescOf d).ddsCaps.dwCaps DDSCAPS_FRONTBUFFER = false ∧
    hasFlag (backBufferDescOf d).ddsCaps.dwCaps DDSCAPS_VISIBLE = false := by
  simp only [backBufferDescOf, hasFlag_DDSCAPS_BACKBUFFER, hasFlag_DDSCAPS_FLIP,
    hasFlag_DDSCAPS_FRONTBUFFER, hasFlag_DDSCAPS_VISIBLE]
  simp [testBit_bitNot, DDSCAPS_BACKBUFFER, DDSCAPS_FLIP, DDSCAPS_FRONTBUFFER,
    DDSCAPS_VISIBLE, testBit_capsMasks]

theorem frontDescOf_caps (d : DDSURFACEDESC) :
    hasFlag (frontDescOf d).ddsCaps.dwCaps DDSCAPS_FRONTBUFFER = true ∧
    hasFlag (frontDescOf d).ddsCaps.dwCaps DDSCAPS_FLIP = true ∧
    hasFlag (frontDescOf d).ddsCaps.dwCaps DDSCAPS_VISIBLE = true := by
  simp only [frontDescOf, hasFlag_DDSCAPS_FLIP, hasFlag_DDSCAPS_FRONTBUFFER,
    hasFlag_DDSCAPS_VISIBLE]
  simp [DDSCAPS_FLIP, DDSCAPS_FRONTBUFFER, DDSCAPS_VISIBLE, testBit_capsMasks]

/-! ## Construction (C1) -/

/-- Construction without the back-buffer request appends one surface. -/
theorem construct_plain (fuel : Nat) (w : World) (desc : DDSURFACEDESC)
    (h : hasFlag desc.dwFlags DDSD_BACKBUFFERCOUNT = false) :
    construct (fuel + 1) w desc =
      some ({ w with surfaces :=
                w.surfaces ++ [freshSurface (resolveDesc w.displayDesc desc) none] },
            w.surfaces.length) := by
  have hf := (resolveDesc_flags w.displayDesc desc).2.2.2.1
  simp [construct, hf, h]

/-- C1. A descriptor with the back-buffer-count flag set and a count above zero
yields, for any fuel of at least 2, a parent with FrontBuffer, Flip and Visible
and exactly one new back buffer: two surfaces are appended to the heap, the
parent points at the other one, that one has the parent's width, height, pitch
and pixel format, has BackBuffer and Flip, has neither FrontBuffer nor Visible,
and has no back buffer of its own. -/
theorem construct_back_buffer (fuel : Nat) (w : World) (desc : DDSURFACEDESC)
    (hflag : hasFlag desc.dwFlags DDSD_BACKBUFFERCOUNT = true)
    (hcount : 0 < desc.dwBackBufferCount) (hfuel : 2 ≤ fuel) :
    ∃ w1 parent child,
      construct fuel w desc = some (w1, w.surfaces.length + 1) ∧
      w1.surfaces = w.surfaces ++ [child, parent] ∧
      parent.m_backBuffer = some w.surfaces.length ∧
      hasFlag parent.m_desc.ddsCaps.dwCaps DDSCAPS_FRONTBUFFER = true ∧
      hasFlag parent.m_desc.ddsCaps.dwCaps DDSCAPS_FLIP = true ∧
      hasFlag parent.m_desc.ddsCaps.dwCaps DDSCAPS_VISIBLE = true ∧
      child.m_desc.dwWidth = parent.m_desc.dwWidth ∧
      child.m_desc.dwHeight = parent.m_desc.dwHeight ∧
      child.m_desc.lPitch = parent.m_desc.lPitch ∧
      child.m_desc.ddpfPixelFormat = parent.m_desc.ddpfPixelFormat ∧
      hasFlag child.m_desc.ddsCaps.dwCaps DDSCAPS_BACKBUFFER = true ∧
      hasFlag child.m_desc.ddsCaps.dwCaps DDSCAPS_FLIP = true ∧
      hasFlag child.m_desc.ddsCaps.dwCaps DDSCAPS_FRONTBUFFER = false ∧
      hasFlag child.m_desc.ddsCaps.dwCaps DDSCAPS_VISIBLE = false ∧
      child.m_backBuffer = none := by
  obtain ⟨n, rfl⟩ : ∃ n, fuel = n + 2 := ⟨fuel - 2, by omega⟩
  have hr := resolveDesc_flags w.displayDesc desc
  have hb := backBufferDescOf_flags (resolveDesc w.displayDesc desc)
  have hc := backBufferDescOf_caps (resolveDesc w.displayDesc desc)
  have hres : resolveDesc w.displayDesc (backBufferDescOf (resolveDesc w.displayDesc desc))
      = { backBufferDescOf (resolveDesc w.displayDesc desc) with lpSurface := none } :=
    resolveDesc_of_resolved _ _ (hb.1.trans hr.1) (hb.2.1.trans hr.2.1)
      (hb.2.2.1.trans hr.2.2.1)
  have hchild := construct_plain n w (backBufferDescOf (resolveDesc w.displayDesc desc)) hb.2.2.2
  have hcnt : (resolveDesc w.displayDesc desc).dwBackBufferCount > 0 := by
    rw [hr.2.2.2.2.1]; exact hcount
  have hfl : hasFlag (resolveDesc w.displayDesc desc).dwFlags DDSD_BACKBUFFERCOUNT = true := by
    rw [hr.2.2.2.1]; exact hflag
  have hfront := frontDescOf_caps (resolveDesc w.displayDesc desc)
  refine ⟨{ w with surfaces := w.surfaces ++
              [freshSurface (resolveDesc w.displayDesc
                  (backBufferDescOf (resolveDesc w.displayDesc desc))) none,
               freshSurface (frontDescOf (resolveDesc w.displayDesc desc))
                  (some w.surfaces.length)] },
    freshSurface (frontDescOf (resolveDesc w.displayDesc desc)) (some w.surfaces.length),
    freshSurface (resolveDesc w.displayDesc
      (backBufferDescOf (resolveDesc w.displayDesc desc))) none, ?_, rfl, rfl, hfront.1,
    hfront.2.1, hfront.2.2, ?_⟩
  · rw [construct]
    simp [hfl, hcnt, hchild]
  · rw [hres]
    exact ⟨rfl, rfl, rfl, rfl, hc.1, hc.2.1, hc.2.2.1, hc.2.2.2, rfl⟩

theorem construct_back_buffer_witness :
    hasFlag exampleDesc.dwFlags DDSD_BACKBUFFERCOUNT = true ∧
    0 < exampleDesc.dwBackBufferCount ∧
    ∃ w1 parent child,
      construct 2 emptyWorld exampleDesc = some (w1, emptyWorld.surfaces.length + 1) ∧
      w1.surfaces = emptyWorld.surfaces ++ [child, parent] ∧
      parent.m_backBuffer = some emptyWorld.surfaces.length ∧
      hasFlag parent.m_desc.ddsCaps.dwCaps DDSCAPS_FRONTBUFFER = true ∧
      hasFlag parent.m_desc.ddsCaps.dwCaps DDSCAPS_FLIP = true ∧
      hasFlag parent.m_desc.ddsCaps.dwCaps DDSCAPS_VISIBLE = true ∧
      child.m_desc.dwWidth = parent.m_desc.dwWidth ∧
      child.m_desc.dwHeight = parent.m_desc.dwHeight ∧
      child.m_desc.lPitch = parent.m_desc.lPitch ∧
      child.m_desc.ddpfPixelFormat = parent.m_desc.ddpfPixelFormat ∧
      hasFlag child.m_desc.ddsCaps.dwCaps DDSCAPS_BACKBUFFER = true ∧
      hasFlag child.m_desc.ddsCaps.dwCaps DDSCAPS_FLIP = true ∧
      hasFlag child.m_desc.ddsCaps.dwCaps DDSCAPS_FRONTBUFFER = false ∧
      hasFlag child.m_desc.ddsCaps.dwCaps DDSCAPS_VISIBLE = false ∧
      child.m_backBuffer = none :=
  ⟨by decide, by decide,
    construct_back_buffer 2 emptyWorld exampleDesc (by decide) (by decide) (by decide)⟩

/-! ## The heap -/

theorem update_get (w : World) (i j : Nat) (f : DirectDrawSurface → DirectDrawSurface) :
    (w.update i f).surfaces[j]? = if i = j then (w.surfaces[j]?).map f else w.surfaces[j]? := by
  unfold World.update
  by_cases h : i = j
  · subst h
    cases hi : w.surfaces[i]? with
    | none => simp [hi]
    | some s => simp [hi, List.getElem?_set_self']
  · cases hi : w.surfaces[i]? with
    | none => simp [h]
    | some s => simp [h, List.getElem?_set_ne h]

@[simp] theorem update_calls (w : World) (i : Nat) (f : DirectDrawSurface → DirectDrawSurface) :
    (w.update i f).calls = w.calls := by
  unfold World.update
  cases w.surfaces[i]? <;> rfl

@[simp] theorem update_context (w : World) (i : Nat) (f : DirectDrawSurface → DirectDrawSurface) :
    (w.update i f).m_context = w.m_context := by
  unfold World.update
  cases w.surfaces[i]? <;> rfl

@[simp] theorem update_displayDesc (w : World) (i : Nat)
    (f : DirectDrawSurface → DirectDrawSurface) :
    (w.update i f).displayDesc = w.displayDesc := by
  unfold World.update
  cases w.surfaces[i]? <;> rfl

@[simp] theorem log_surfaces (w : World) (c : Call) : (w.log c).surfaces = w.surfaces := rfl
@[simp] theorem log_calls (w : World) (c : Call) : (w.log c).calls = w.calls ++ [c] := rfl
@[simp] theorem log_context (w : World) (c : Call) : (w.log c).m_context = w.m_context := rfl
@[simp] theorem log_displayDesc (w : World) (c : Call) :
    (w.log c).displayDesc = w.displayDesc := rfl

theorem Frame.refl (w : World) (self b : Nat) : Frame w w self b :=
  ⟨fun _ _ _ => rfl, rfl, rfl⟩

theorem Frame.trans {w w1 w2 : World} {self b : Nat} (h1 : Frame w w1 self b)
    (h2 : Frame w1 w2 self b) : Frame w w2 self b :=
  ⟨fun j hj hb => (h2.1 j hj hb).trans (h1.1 j hj hb), h2.2.1.trans h1.2.1,
    h2.2.2.trans h1.2.2⟩

/-! ## The steps of a flip -/

theorem discardDirty_spec (r : Bool) (w : World) (self b : Nat) (s k : DirectDrawSurface)
    (hs : w.surfaces[self]? = some s) (hk : w.surfaces[b]? = some k) :
    (Flip.discardDirty r w self).surfaces[self]?
        = some { s with m_dirty := !r && s.m_dirty } ∧
    (self ≠ b → (Flip.discardDirty r w self).surfaces[b]? = some k) ∧
    Frame w (Flip.discardDirty r w self) self b ∧
    (Flip.discardDirty r w self).calls = w.calls := by
  cases r
  · exact ⟨by simpa [Flip.discardDirty] using hs, fun _ => by simpa [Flip.discardDirty] using hk,
      Frame.refl _ _ _, rfl⟩
  · refine ⟨by simp [Flip.discardDirty, update_get, hs],
      fun h => by simp [Flip.discardDirty, update_get, hk, h], ⟨?_, ?_, ?_⟩, ?_⟩
    · intro j hj _
      simp [Flip.discardDirty, update_get, Ne.symm hj]
    · simp [Flip.discardDirty]
    · simp [Flip.discardDirty]
    · simp [Flip.discardDirty]

theorem swapBuffer_spec (w : World) (self b : Nat) (s k : DirectDrawSurface)
    (hs : w.surfaces[self]? = some s) (hk : w.surfaces[b]? = some k) :
    ∃ w1, Flip.swapBuffer w self b = some w1 ∧
      w1.surfaces[self]? = some { s with m_buffer := k.m_buffer } ∧
      w1.surfaces[b]? = some { k with m_buffer := s.m_buffer } ∧
      Frame w w1 self b ∧ w1.calls = w.calls := by
  refine ⟨_, by simp [Flip.swapBuffer, hs, hk]; rfl, ?_, ?_, ⟨?_, ?_, ?_⟩, ?_⟩
  · by_cases h : self = b
    · subst h
      have e : k = s := by rw [hs] at hk; exact (Option.some.inj hk).symm
      subst e
      simp [update_get, hs]
    · simp [update_get, hs, h, Ne.symm h]
  · by_cases h : self = b
    · subst h
      have e : k = s := by rw [hs] at hk; exact (Option.some.inj hk).symm
      subst e
      simp [update_get, hs]
    · simp [update_get, hk, h]
  · intro j hj hb
    simp [update_get, Ne.symm hj, Ne.symm hb]
  · simp
  · simp
  · simp

theorem swapDirty_spec (w : World) (self b : Nat) (s k : DirectDrawSurface)
    (hs : w.surfaces[self]? = some s) (hk : w.surfaces[b]? = some k) :
    ∃ w1, Flip.swapDirty w self b = some w1 ∧
      w1.surfaces[self]? = some { s with m_dirty := k.m_dirty } ∧
      w1.surfaces[b]? = some { k with m_dirty := s.m_dirty } ∧
      Frame w w1 self b ∧ w1.calls = w.calls := by
  refine ⟨_, by simp [Flip.swapDirty, hs, hk]; rfl, ?_, ?_, ⟨?_, ?_, ?_⟩, ?_⟩
  · by_cases h : self = b
    · subst h
      have e : k = s := by rw [hs] at hk; exact (Option.some.inj hk).symm
      subst e
      simp [update_get, hs]
    · simp [update_get, hs, h, Ne.symm h]
  · by_cases h : self = b
    · subst h
      have e : k = s := by rw [hs] at hk; exact (Option.some.inj hk).symm
      subst e
      simp [update_get, hs]
    · simp [update_get, hk, h]
  · intro j hj hb
    simp [update_get, Ne.symm hj, Ne.symm hb]
  · simp
  · simp
  · simp

theorem uploadIfDirty_spec (w : World) (self b : Nat) (s : DirectDrawSurface)
    (hs : w.surfaces[self]? = some s) :
    ∃ w1, Flip.uploadIfDirty w self = some w1 ∧
      w1.surfaces[self]? = some { s with m_dirty := false } ∧
      (self ≠ b → w1.surfaces[b]? = w.surfaces[b]?) ∧
      Frame w w1 self b ∧
      w1.calls = w.calls ++ (if s.m_dirty then [Call.upload s.m_desc s.m_buffer] else []) := by
  cases hd : s.m_dirty
  · refine ⟨w, by simp [Flip.uploadIfDirty, hs, hd], ?_, fun _ => rfl, Frame.refl _ _ _, by simp⟩
    rw [hs, ← hd]
  · refine ⟨_, by simp [Flip.uploadIfDirty, hs, hd]; rfl, ?_, ?_, ⟨?_, ?_, ?_⟩, ?_⟩
    · simp [update_get, hs]
    · intro h
      simp [update_get, h]
    · intro j hj _
      simp [update_get, Ne.symm hj]
    · simp
    · simp
    · simp

theorem present_spec (r : Bool) (w : World) :
    (Flip.present r w).surfaces = w.surfaces ∧
    (Flip.present r w).m_context = w.m_context ∧
    (Flip.present r w).displayDesc = w.displayDesc ∧
    (Flip.present r w).calls = w.calls ++ presentCalls r := by
  cases r <;> simp [Flip.present, presentCalls]

/-- The body of a flip on two distinct surfaces: the buffers are exchanged, the
front ends up clean, the back inherits the front's dirty flag unless the read
was true, and the front's descriptor with the former back's buffer is uploaded
exactly when the back was dirty. -/
theorem FlipBody_ne (r : Bool) (w : World) (self b : Nat) (s k : DirectDrawSurface)
    (hne : self ≠ b) (hs : w.surfaces[self]? = some s) (hk : w.surfaces[b]? = some k) :
    ∃ w1, FlipBody r w self b = some (HRESULT.DD_OK, w1) ∧
      w1.surfaces[self]? = some { s with m_buffer := k.m_buffer, m_dirty := false } ∧
      w1.surfaces[b]? = some { k with m_buffer := s.m_buffer, m_dirty := !r && s.m_dirty } ∧
      Frame w w1 self b ∧
      w1.calls = w.calls ++ (if k.m_dirty then [Call.upload s.m_desc k.m_buffer] else [])
        ++ presentCalls r := by
  obtain ⟨h1s, h1k, h1f, h1c⟩ := discardDirty_spec r w self b s k hs hk
  obtain ⟨w2, e2, h2s, h2k, h2f, h2c⟩ := swapBuffer_spec _ self b _ _ h1s (h1k hne)
  obtain ⟨w3, e3, h3s, h3k, h3f, h3c⟩ := swapDirty_spec _ self b _ _ h2s h2k
  obtain ⟨w4, e4, h4s, h4k, h4f, h4c⟩ := uploadIfDirty_spec _ self b _ h3s
  obtain ⟨p1, p2, p3, p4⟩ := present_spec r w4
  refine ⟨Flip.present r w4, ?_, ?_, ?_, ?_, ?_⟩
  · simp [FlipBody, e2, e3, e4]
  · rw [p1, h4s]
  · rw [p1, h4k hne, h3k]
  · refine Frame.trans (Frame.trans (Frame.trans h1f h2f) h3f) (Frame.trans h4f ?_)
    exact ⟨fun j _ _ => by rw [p1], p2, p3⟩
  · rw [p4, h4c, h3c, h2c, h1c]

/-- The body of a flip on a surface that is its own back buffer: the buffer
stays, the surface ends up clean and it is uploaded exactly when it was dirty
and the read was false. -/
theorem FlipBody_self (r : Bool) (w : World) (self : Nat) (s : DirectDrawSurface)
    (hs : w.surfaces[self]? = some s) :
    ∃ w1, FlipBody r w self self = some (HRESULT.DD_OK, w1) ∧
      w1.surfaces[self]? = some { s with m_dirty := false } ∧
      Frame w w1 self self ∧
      w1.calls = w.calls
        ++ (if !r && s.m_dirty then [Call.upload s.m_desc s.m_buffer] else [])
        ++ presentCalls r := by
  obtain ⟨h1s, -, h1f, h1c⟩ := discardDirty_spec r w self self s s hs hs
  obtain ⟨w2, e2, h2s, -, h2f, h2c⟩ := swapBuffer_spec _ self self _ _ h1s h1s
  obtain ⟨w3, e3, h3s, -, h3f, h3c⟩ := swapDirty_spec _ self self _ _ h2s h2s
  obtain ⟨w4, e4, h4s, -, h4f, h4c⟩ := uploadIfDirty_spec _ self self _ h3s
  obtain ⟨p1, p2, p3, p4⟩ := present_spec r w4
  refine ⟨Flip.present r w4, ?_, ?_, ?_, ?_⟩
  · simp [FlipBody, e2, e3, e4]
  · rw [p1, h4s]
  · refine Frame.trans (Frame.trans (Frame.trans h1f h2f) h3f) (Frame.trans h4f ?_)
    exact ⟨fun j _ _ => by rw [p1], p2, p3⟩
  · rw [p4, h4c, h3c, h2c, h1c]

/-! ## Flip (C2 to C6) -/

/-- On a flippable surface `Flip` reads the context flag, which comes back
false, and runs the body. -/
theorem Flip_eq_body (w : World) (self b : Nat) (s : DirectDrawSurface)
    (hs : w.surfaces[self]? = some s)
    (hflip : hasFlag s.m_desc.ddsCaps.dwCaps DDSCAPS_FLIP = true)
    (hfront : hasFlag s.m_desc.ddsCaps.dwCaps DDSCAPS_FRONTBUFFER = true)
    (hb : s.m_backBuffer = some b) :
    Flip w self = FlipBody false
      ({ w with m_context := { w.m_context with m_render := false } }.log Call.isRendered)
      self b := by
  simp [Flip, hs, hflip, hfront, hb, Context.isRendered]

/-- C2. `Flip` answers NotFlippable exactly when the surface lacks Flip, lacks
FrontBuffer or has no back buffer, and then the world (every buffer, dirty flag
and lock flag, the context and the list of collaborator calls) is the one it
started from. -/
theorem Flip_not_flippable (w : World) (self : Nat) (s : DirectDrawSurface)
    (hs : w.surfaces[self]? = some s)
    (hback : ∀ b, s.m_backBuffer = some b → ∃ k, w.surfaces[b]? = some k) :
    ∃ r w1, Flip w self = some (r, w1) ∧
      (r = HRESULT.DDERR_NOTFLIPPABLE ↔
        (hasFlag s.m_desc.ddsCaps.dwCaps DDSCAPS_FLIP = false ∨
         hasFlag s.m_desc.ddsCaps.dwCaps DDSCAPS_FRONTBUFFER = false ∨
         s.m_backBuffer = none)) ∧
      (r = HRESULT.DDERR_NOTFLIPPABLE → w1 = w) := by
  cases hflip : hasFlag s.m_desc.ddsCaps.dwCaps DDSCAPS_FLIP
  · exact ⟨HRESULT.DDERR_NOTFLIPPABLE, w, by simp [Flip, hs, hflip], by simp, fun _ => rfl⟩
  cases hfront : hasFlag s.m_desc.ddsCaps.dwCaps DDSCAPS_FRONTBUFFER
  · exact ⟨HRESULT.DDERR_NOTFLIPPABLE, w, by simp [Flip, hs, hflip, hfront], by simp,
      fun _ => rfl⟩
  cases hb : s.m_backBuffer with
  | none =>
    exact ⟨HRESULT.DDERR_NOTFLIPPABLE, w, by simp [Flip, hs, hflip, hfront, hb], by simp,
      fun _ => rfl⟩
  | some b =>
    obtain ⟨k, hk⟩ := hback b hb
    rw [Flip_eq_body w self b s hs hflip hfront hb]
    by_cases hne : self = b
    · subst hne
      obtain ⟨w1, e, -⟩ := FlipBody_self false
        ({ w with m_context := { w.m_context with m_render := false } }.log Call.isRendered)
        self s hs
      exact ⟨HRESULT.DD_OK, w1, e, by simp, by simp⟩
    · obtain ⟨w1, e, -⟩ := FlipBody_ne false
        ({ w with m_context := { w.m_context with m_render := false } }.log Call.isRendered)
        self b s k hne hs hk
      exact ⟨HRESULT.DD_OK, w1, e, by simp, by simp⟩

theorem Flip_not_flippable_witness :
    ∃ r w1, Flip (soloWorld DDSCAPS_PRIMARYSURFACE false "") 0 = some (r, w1) ∧
      (r = HRESULT.DDERR_NOTFLIPPABLE ↔
        (hasFlag (mkSurface DDSCAPS_PRIMARYSURFACE [1, 2, 3, 4] false false none).m_desc.ddsCaps.dwCaps
            DDSCAPS_FLIP = false ∨
         hasFlag (mkSurface DDSCAPS_PRIMARYSURFACE [1, 2, 3, 4] false false none).m_desc.ddsCaps.dwCaps
            DDSCAPS_FRONTBUFFER = false ∨
         (mkSurface DDSCAPS_PRIMARYSURFACE [1, 2, 3, 4] false false none).m_backBuffer = none)) ∧
      (r = HRESULT.DDERR_NOTFLIPPABLE → w1 = soloWorld DDSCAPS_PRIMARYSURFACE false "") :=
  Flip_not_flippable (soloWorld DDSCAPS_PRIMARYSURFACE false "") 0
    (mkSurface DDSCAPS_PRIMARYSURFACE [1, 2, 3, 4] false false none) rfl
    (fun b hb => by cases hb)

/-- C3. On a flippable surface with a back buffer, two calls of `Flip` in a row
both succeed (the context flag reads false at each of them) and afterwards the
front holds the buffer it started with and so does the back. -/
theorem Flip_twice_restores_buffers (w : World) (self b : Nat) (s k : DirectDrawSurface)
    (hs : w.surfaces[self]? = some s)
    (hflip : hasFlag s.m_desc.ddsCaps.dwCaps DDSCAPS_FLIP = true)
    (hfront : hasFlag s.m_desc.ddsCaps.dwCaps DDSCAPS_FRONTBUFFER = true)
    (hb : s.m_backBuffer = some b) (hk : w.surfaces[b]? = some k) :
    ∃ w1 w2, Flip w self = some (HRESULT.DD_OK, w1) ∧
      Flip w1 self = some (HRESULT.DD_OK, w2) ∧
      (w2.surfaces[self]?).map (fun x => x.m_buffer) = some s.m_buffer ∧
      (w2.surfaces[b]?).map (fun x => x.m_buffer) = some k.m_buffer := by
  by_cases hne : self = b
  · subst hne
    have e : k = s := by rw [hs] at hk; exact (Option.some.inj hk).symm
    subst e
    obtain ⟨w1, e1, h1s, -⟩ := FlipBody_self false
      ({ w with m_context := { w.m_context with m_render := false } }.log Call.isRendered)
      self k hs
    obtain ⟨w2, e2, h2s, -⟩ := FlipBody_self false
      ({ w1 with m_context := { w1.m_context with m_render := false } }.log Call.isRendered)
      self _ h1s
    refine ⟨w1, w2, ?_, ?_, ?_, ?_⟩
    · rw [Flip_eq_body w self self k hs hflip hfront hb]; exact e1
    · rw [Flip_eq_body w1 self self _ h1s hflip hfront hb]; exact e2
    · rw [h2s]; rfl
    · rw [h2s]; rfl
  · obtain ⟨w1, e1, h1s, h1k, -⟩ := FlipBody_ne false
      ({ w with m_context := { w.m_context with m_render := false } }.log Call.isRendered)
      self b s k hne hs hk
    obtain ⟨w2, e2, h2s, h2k, -⟩ := FlipBody_ne false
      ({ w1 with m_context := { w1.m_context with m_render := false } }.log Call.isRendered)
      self b _ _ hne h1s h1k
    refine ⟨w1, w2, ?_, ?_, ?_, ?_⟩
    · rw [Flip_eq_body w self b s hs hflip hfront hb]; exact e1
    · rw [Flip_eq_body w1 self b _ h1s hflip hfront hb]; exact e2
    · rw [h2s]; rfl
    · rw [h2k]; rfl

theorem Flip_twice_restores_buffers_witness :
    ∃ w1 w2, Flip (flipWorld false false true false) 0 = some (HRESULT.DD_OK, w1) ∧
      Flip w1 0 = some (HRESULT.DD_OK, w2) ∧
      (w2.surfaces[0]?).map (fun x => x.m_buffer) = some [1, 2, 3, 4] ∧
      (w2.surfaces[1]?).map (fun x => x.m_buffer) = some [5, 6, 7, 8] :=
  Flip_twice_restores_buffers (flipWorld false false true false) 0 1 _ _ rfl (by decide)
    (by decide) rfl rfl

/-- The calls added by the body of a flip: at most one upload, then the
present, viewport and render calls. -/
theorem FlipBody_calls (r : Bool) (w : World) (self b : Nat) (s k : DirectDrawSurface)
    (hs : w.surfaces[self]? = some s) (hk : w.surfaces[b]? = some k) :
    ∃ w1 up, FlipBody r w self b = some (HRESULT.DD_OK, w1) ∧
      (up = [] ∨ ∃ d buf, up = [Call.upload d buf]) ∧
      w1.calls = w.calls ++ up ++ presentCalls r := by
  by_cases hne : self = b
  · subst hne
    obtain ⟨w1, e1, -, -, hc⟩ := FlipBody_self r w self s hs
    refine ⟨w1, _, e1, ?_, hc⟩
    cases (!r && s.m_dirty)
    · exact Or.inl rfl
    · exact Or.inr ⟨_, _, rfl⟩
  · obtain ⟨w1, e1, -, -, -, hc⟩ := FlipBody_ne r w self b s k hne hs hk
    refine ⟨w1, _, e1, ?_, hc⟩
    cases k.m_dirty
    · exact Or.inl rfl
    · exact Or.inr ⟨_, _, rfl⟩

/-- C5. On a flippable front surface with a back buffer, whatever the value of
the context flag before the call, `Flip` returns `DD_OK` and adds to the calls
made so far: the read of the context flag, at most one upload, then exactly one
viewport recomputation, one render pass and one present, in this order. The
present is the last call also when the context flag was set, that is when
external rendering took place before the flip: the read comes back false. -/
theorem Flip_presents_last (w : World) (self b : Nat) (s k : DirectDrawSurface)
    (hs : w.surfaces[self]? = some s)
    (hflip : hasFlag s.m_desc.ddsCaps.dwCaps DDSCAPS_FLIP = true)
    (hfront : hasFlag s.m_desc.ddsCaps.dwCaps DDSCAPS_FRONTBUFFER = true)
    (hb : s.m_backBuffer = some b) (hk : w.surfaces[b]? = some k) :
    ∃ w1 up, Flip w self = some (HRESULT.DD_OK, w1) ∧
      (up = [] ∨ ∃ d buf, up = [Call.upload d buf]) ∧
      w1.calls = w.calls ++ [Call.isRendered] ++ up ++
        [Call.setupViewport, Call.render, Call.swapBuffers] := by
  obtain ⟨w1, up, e, hup, hc⟩ := FlipBody_calls false
    ({ w with m_context := { w.m_context with m_render := false } }.log Call.isRendered)
    self b s k hs hk
  exact ⟨w1, up, by rw [Flip_eq_body w self b s hs hflip hfront hb]; exact e, hup, hc⟩

theorem Flip_presents_last_witness :
    (flipWorld true false false true).m_context.m_render = true ∧
    ∃ w1 up, Flip (flipWorld true false false true) 0 = some (HRESULT.DD_OK, w1) ∧
      (up = [] ∨ ∃ d buf, up = [Call.upload d buf]) ∧
      w1.calls = (flipWorld true false false true).calls ++ [Call.isRendered] ++ up ++
        [Call.setupViewport, Call.render, Call.swapBuffers] :=
  ⟨rfl, Flip_presents_last (flipWorld true false false true) 0 1 _ _ rfl (by decide)
    (by decide) rfl rfl⟩

/-- C6. `Flip` on the locked front surface of `flipWorld` returns `DD_OK`, the
two buffers have changed places and the surface is still locked. `Blt` onto the
same surface returns LockedSurfaces and `Lock` on it returns SurfaceBusy. -/
theorem Flip_locked_succeeds :
    (Flip (flipWorld false true false false) 0).map
        (fun p => (p.1, p.2.surfaces.map (fun x => (x.m_buffer, x.m_locked))))
      = some (HRESULT.DD_OK, [([5, 6, 7, 8], true), ([1, 2, 3, 4], false)]) ∧
    (Blt (flipWorld false true false false) 0 none (some 1) none 0 0).map (fun p => p.1)
      = some HRESULT.DDERR_LOCKEDSURFACES ∧
    (Lock (flipWorld false true false false) 0).map (fun p => p.1)
      = some HRESULT.DDERR_SURFACEBUSY := by
  refine ⟨?_, ?_, ?_⟩ <;> rfl

/-- `Flip` does not look at the lock flag: on a locked flippable front surface
with a back buffer it returns `DD_OK`, the two buffers change places and both
lock flags stay as they were. -/
theorem Flip_ignores_lock (w : World) (self b : Nat) (s k : DirectDrawSurface)
    (hs : w.surfaces[self]? = some s) (hlocked : s.m_locked = true)
    (hflip : hasFlag s.m_desc.ddsCaps.dwCaps DDSCAPS_FLIP = true)
    (hfront : hasFlag s.m_desc.ddsCaps.dwCaps DDSCAPS_FRONTBUFFER = true)
    (hb : s.m_backBuffer = some b) (hk : w.surfaces[b]? = some k) :
    ∃ w1 s1 k1, Flip w self = some (HRESULT.DD_OK, w1) ∧
      w1.surfaces[self]? = some s1 ∧ w1.surfaces[b]? = some k1 ∧
      s1.m_buffer = k.m_buffer ∧ k1.m_buffer = s.m_buffer ∧
      s1.m_locked = true ∧ k1.m_locked = k.m_locked := by
  by_cases hne : self = b
  · subst hne
    have e : k = s := by rw [hs] at hk; exact (Option.some.inj hk).symm
    subst e
    obtain ⟨w1, e1, h1s, -⟩ := FlipBody_self false
      ({ w with m_context := { w.m_context with m_render := false } }.log Call.isRendered)
      self k hs
    refine ⟨w1, _, _, ?_, h1s, h1s, rfl, rfl, hlocked, rfl⟩
    rw [Flip_eq_body w self self k hs hflip hfront hb]; exact e1
  · obtain ⟨w1, e1, h1s, h1k, -⟩ := FlipBody_ne false
      ({ w with m_context := { w.m_context with m_render := false } }.log Call.isRendered)
      self b s k hne hs hk
    refine ⟨w1, _, _, ?_, h1s, h1k, rfl, rfl, hlocked, rfl⟩
    rw [Flip_eq_body w self b s hs hflip hfront hb]; exact e1

theorem Flip_ignores_lock_witness :
    ∃ w1 s1 k1, Flip (flipWorld false true false false) 0 = some (HRESULT.DD_OK, w1) ∧
      w1.surfaces[0]? = some s1 ∧ w1.surfaces[1]? = some k1 ∧
      s1.m_buffer = [5, 6, 7, 8] ∧ k1.m_buffer = [1, 2, 3, 4] ∧
      s1.m_locked = true ∧ k1.m_locked = false :=
  Flip_ignores_lock (flipWorld false true false false) 0 1 _ _ rfl rfl (by decide)
    (by decide) rfl rfl

/-! ## The context flag (C7) -/

/-- C7. `isRendered` called right after `renderBegin` returns false, although
the flag was true when it was called; the flag is false afterwards. -/
theorem isRendered_after_renderBegin (c : Context) :
    (Context.renderBegin c).m_render = true ∧
    (Context.isRendered (Context.renderBegin c)).1 = false ∧
    (Context.isRendered (Context.renderBegin c)).2.m_render = false :=
  ⟨rfl, rfl, rfl⟩

theorem foldl_length {α : Type} (f : List Nat → α → List Nat)
    (hf : ∀ b a, (f b a).length = b.length) (l : List α) (b : List Nat) :
    (l.foldl f b).length = b.length := by
  induction l generalizing b with
  | nil => rfl
  | cons a l ih => rw [List.foldl_cons, ih, hf]

/-! ## Lock and unlock (C8 to C10) -/

/-- C8. `Lock` on a locked surface returns SurfaceBusy and `Unlock` on a surface
that is not locked returns NotLocked; in both cases nothing is stored in the
caller's descriptor and the world (buffers, flags, descriptors, collaborator
calls) is left as it was. -/
theorem Lock_busy_Unlock_notLocked (w : World) (self : Nat) (s : DirectDrawSurface)
    (hs : w.surfaces[self]? = some s) :
    (s.m_locked = true → Lock w self = some (HRESULT.DDERR_SURFACEBUSY, none, w)) ∧
    (s.m_locked = false → Unlock w self = some (HRESULT.DDERR_NOTLOCKED, w)) := by
  constructor
  · intro h
    simp [Lock, hs, h]
  · intro h
    simp [Unlock, hs, h]

theorem Lock_busy_Unlock_notLocked_witness :
    Lock (soloWorld DDSCAPS_PRIMARYSURFACE true "") 0
      = some (HRESULT.DDERR_SURFACEBUSY, none, soloWorld DDSCAPS_PRIMARYSURFACE true "") ∧
    Unlock (soloWorld DDSCAPS_PRIMARYSURFACE false "") 0
      = some (HRESULT.DDERR_NOTLOCKED, soloWorld DDSCAPS_PRIMARYSURFACE false "") :=
  ⟨(Lock_busy_Unlock_notLocked (soloWorld DDSCAPS_PRIMARYSURFACE true "") 0 _ rfl).1 rfl,
   (Lock_busy_Unlock_notLocked (soloWorld DDSCAPS_PRIMARYSURFACE false "") 0 _ rfl).2 rfl⟩

/-- `Lock` on a surface that is not locked returns `DD_OK`; the surface is then
locked and dirty with the buffer it had; the descriptor handed back is the
surface's own, has the surface-pointer flag, and agrees with the old descriptor
on width, height, pitch, pixel format, capabilities, back-buffer count and
every other flag bit; its pointer is the surface's own buffer when the buffer
is not empty and the null pointer when it is empty; the collaborators are not
called. -/
theorem Lock_unlocked (w : World) (self : Nat) (s : DirectDrawSurface)
    (hs : w.surfaces[self]? = some s) (hun : s.m_locked = false) :
    ∃ d w1 s1, Lock w self = some (HRESULT.DD_OK, some d, w1) ∧
      w1.surfaces[self]? = some s1 ∧
      s1.m_locked = true ∧ s1.m_dirty = true ∧ s1.m_buffer = s.m_buffer ∧ s1.m_desc = d ∧
      hasFlag d.dwFlags DDSD_LPSURFACE = true ∧
      (s.m_buffer ≠ [] → d.lpSurface = some self) ∧
      (s.m_buffer = [] → d.lpSurface = none) ∧
      d.dwWidth = s.m_desc.dwWidth ∧ d.dwHeight = s.m_desc.dwHeight ∧
      d.lPitch = s.m_desc.lPitch ∧ d.ddpfPixelFormat = s.m_desc.ddpfPixelFormat ∧
      d.ddsCaps = s.m_desc.ddsCaps ∧ d.dwBackBufferCount = s.m_desc.dwBackBufferCount ∧
      (∀ i, i ≠ 11 → d.dwFlags.testBit i = s.m_desc.dwFlags.testBit i) ∧
      w1.calls = w.calls ∧ w1.m_context = w.m_context := by
  refine ⟨{ s.m_desc with lpSurface := (if s.m_buffer.isEmpty then none else some self),
                          dwFlags := s.m_desc.dwFlags ||| DDSD_LPSURFACE },
    { w with surfaces := (w.surfaces.set self
        { s with m_desc := { s.m_desc with
                               lpSurface := (if s.m_buffer.isEmpty then none else some self),
                               dwFlags := s.m_desc.dwFlags ||| DDSD_LPSURFACE },
                 m_locked := true, m_dirty := true }) },
    { s with m_desc := { s.m_desc with
                           lpSurface := (if s.m_buffer.isEmpty then none else some self),
                           dwFlags := s.m_desc.dwFlags ||| DDSD_LPSURFACE },
             m_locked := true, m_dirty := true },
    by simp [Lock, hs, hun], ?_, rfl, rfl, rfl, rfl, ?_, ?_, ?_,
    rfl, rfl, rfl, rfl, rfl, rfl, ?_, rfl, rfl⟩
  · simp [List.getElem?_set_self', hs]
  · rw [hasFlag_DDSD_LPSURFACE]
    simp [DDSD_LPSURFACE, testBit_flagMasks]
  · intro h
    simp [h]
  · intro h
    simp [h]
  · intro i hi
    have h11 : Nat.testBit DDSD_LPSURFACE i = false :=
      Nat.testBit_two_pow_of_ne (n := 11) (fun h => hi h.symm)
    simp [h11]

theorem Lock_unlocked_witness :
    ∃ d w1 s1, Lock (soloWorld DDSCAPS_PRIMARYSURFACE false "") 0
        = some (HRESULT.DD_OK, some d, w1) ∧
      w1.surfaces[0]? = some s1 ∧
      s1.m_locked = true ∧ s1.m_dirty = true ∧ s1.m_buffer = [1, 2, 3, 4] ∧ s1.m_desc = d ∧
      hasFlag d.dwFlags DDSD_LPSURFACE = true ∧
      ([1, 2, 3, 4] ≠ [] → d.lpSurface = some 0) ∧
      ([1, 2, 3, 4] = [] → d.lpSurface = none) ∧
      d.dwWidth = 1 ∧ d.dwHeight = 2 ∧ d.lPitch = 2 ∧ d.ddpfPixelFormat = pf32 ∧
      d.ddsCaps = ⟨DDSCAPS_PRIMARYSURFACE⟩ ∧ d.dwBackBufferCount = 0 ∧
      (∀ i, i ≠ 11 → d.dwFlags.testBit i
        = (mkDesc 1 2 2 DDSCAPS_PRIMARYSURFACE).dwFlags.testBit i) ∧
      w1.calls = [] ∧ w1.m_context = ctx0 false "" :=
  Lock_unlocked (soloWorld DDSCAPS_PRIMARYSURFACE false "") 0 _ rfl rfl

/-- C9. A surface created 0 by 0 pixels is not locked and has an empty buffer.
`Lock` on it returns `DD_OK` and hands back a descriptor that has the
surface-pointer flag and the null pointer: it does not refer to a buffer. On the
same surface created 1 by 1 the pointer is the surface's own buffer. -/
theorem Lock_empty_buffer_null_pointer :
    lockFresh (mkDesc 0 0 0 0)
      = some (0, false, [], HRESULT.DD_OK, some (true, none)) ∧
    lockFresh (mkDesc 1 1 4 0)
      = some (0, false, [0, 0, 0, 0], HRESULT.DD_OK, some (true, some 0)) := by
  constructor <;> rfl

/-! ### The scanline copy -/

theorem foldlM_length {α : Type} (f : List Nat → α → Option (List Nat))
    (hf : ∀ b a r, f b a = some r → r.length = b.length) (l : List α) (b r : List Nat)
    (h : l.foldlM f b = some r) : r.length = b.length := by
  induction l generalizing b with
  | nil =>
    simp at h
    rw [← h]
  | cons a l ih =>
    rw [List.foldlM_cons] at h
    cases hfa : f b a with
    | none => rw [hfa] at h; cases h
    | some b1 =>
      rw [hfa] at h
      rw [ih b1 h, hf b a b1 hfa]

theorem copyWithin_length (buf : List Nat) (src dst n : Nat) (r : List Nat)
    (h : copyWithin buf src dst n = some r) : r.length = buf.length := by
  unfold copyWithin at h
  split at h
  · cases h
    exact foldl_length _ (fun _ _ => by simp) _ _
  · cases h

theorem fixBlackLines_length (pitch height : Nat) (buf r : List Nat)
    (h : fixBlackLines pitch height buf = some r) : r.length = buf.length := by
  unfold fixBlackLines at h
  split at h
  · cases h
  · exact foldlM_length _ (fun _ _ _ hc => copyWithin_length _ _ _ _ _ hc) _ _ _ h

/-- A sequence of copies inside one vector has a result exactly when each of them
stays inside the vector. -/
theorem foldlM_copyWithin_isSome (src dst : Nat → Nat) (n : Nat) (l : List Nat)
    (buf : List Nat) :
    (l.foldlM (fun b k => copyWithin b (src k) (dst k) n) buf).isSome = true ↔
      ∀ k ∈ l, src k + n ≤ buf.length ∧ dst k + n ≤ buf.length := by
  induction l generalizing buf with
  | nil => simp
  | cons a l ih =>
    rw [List.foldlM_cons]
    by_cases hb : src a + n ≤ buf.length ∧ dst a + n ≤ buf.length
    · obtain ⟨b1, hb1⟩ : ∃ b1, copyWithin buf (src a) (dst a) n = some b1 := by
        unfold copyWithin
        rw [if_pos hb]
        exact ⟨_, rfl⟩
      have hlen := copyWithin_length _ _ _ _ _ hb1
      rw [hb1]
      simp only [Option.some_bind, Option.bind_eq_bind]
      rw [ih b1, hlen]
      simp [hb]
    · have hnone : copyWithin buf (src a) (dst a) n = none := by
        unfold copyWithin
        rw [if_neg hb]
      rw [hnone]
      simp only [Option.none_bind, Option.bind_eq_bind, Option.isSome_none]
      constructor
      · intro h; cases h
      · intro h
        exact absurd (h a (List.mem_cons_self _ _)) hb

/-- The scanline copy has a result exactly when the loop ends and every
iteration stays inside the buffer. -/
theorem fixBlackLines_isSome (pitch height : Nat) (buf : List Nat) :
    (fixBlackLines pitch height buf).isSome = true ↔
      (height ≠ 2 ^ 32 - 1 ∧ fixBlackLinesInBounds pitch height buf.length = true) := by
  unfold fixBlackLines fixBlackLinesInBounds
  by_cases hh : height = 2 ^ 32 - 1
  · simp [hh]
  · have hh1 : ¬ height = 4294967295 := hh
    rw [if_neg hh, foldlM_copyWithin_isSome, List.all_eq_true]
    simp [hh1]

/-- `Unlock` on a locked surface for which the scanline copy, if it is run, has
a result, returns `DD_OK` and leaves the surface unlocked. If the surface is
Primary and not Flip the calls it adds are, in this order, present, viewport,
one upload of the surface's descriptor and buffer as they are after the call,
and one render; otherwise it adds no call. Outside the Tomb Raider case the
buffer is the one the surface had. -/
theorem Unlock_locked (w : World) (self : Nat) (s : DirectDrawSurface)
    (hs : w.surfaces[self]? = some s) (hl : s.m_locked = true)
    (hfix : hasFlag s.m_desc.ddsCaps.dwCaps DDSCAPS_PRIMARYSURFACE = true →
      hasFlag s.m_desc.ddsCaps.dwCaps DDSCAPS_FLIP = false →
      isTombGame w.m_context = true →
      (fixBlackLines s.m_desc.lPitch s.m_desc.dwHeight s.m_buffer).isSome = true) :
    ∃ w1 s1, Unlock w self = some (HRESULT.DD_OK, w1) ∧
      w1.surfaces[self]? = some s1 ∧ s1.m_locked = false ∧
      (isTombGame w.m_context = false → s1.m_buffer = s.m_buffer) ∧
      ((hasFlag s.m_desc.ddsCaps.dwCaps DDSCAPS_PRIMARYSURFACE = true ∧
          hasFlag s.m_desc.ddsCaps.dwCaps DDSCAPS_FLIP = false) →
        w1.calls = w.calls ++ [Call.swapBuffers, Call.setupViewport,
          Call.upload s1.m_desc s1.m_buffer, Call.render]) ∧
      (¬ (hasFlag s.m_desc.ddsCaps.dwCaps DDSCAPS_PRIMARYSURFACE = true ∧
          hasFlag s.m_desc.ddsCaps.dwCaps DDSCAPS_FLIP = false) →
        w1.calls = w.calls) := by
  cases hp : hasFlag s.m_desc.ddsCaps.dwCaps DDSCAPS_PRIMARYSURFACE
  · exact ⟨_, _, by simp [Unlock, hs, hl, hp]; rfl,
      by simp [List.getElem?_set_self', hs]; rfl, rfl, by simp, by simp, by simp⟩
  cases hf : hasFlag s.m_desc.ddsCaps.dwCaps DDSCAPS_FLIP
  swap
  · exact ⟨_, _, by simp [Unlock, hs, hl, hp, hf]; rfl,
      by simp [List.getElem?_set_self', hs]; rfl, rfl, by simp, by simp, by simp⟩
  cases ht : isTombGame w.m_context
  · exact ⟨_, _, by simp [Unlock, Unlock.fixLines, hs, hl, hp, hf, ht]; rfl,
      by simp [Unlock.redraw, List.getElem?_set_self', hs, World.log]; rfl, rfl, by simp,
      by simp [Unlock.redraw, World.log], by simp⟩
  · obtain ⟨b, hb⟩ := Option.isSome_iff_exists.mp (hfix hp hf ht)
    exact ⟨_, _, by simp [Unlock, Unlock.fixLines, hs, hl, hp, hf, ht, hb]; rfl,
      by simp [Unlock.redraw, List.getElem?_set_self', hs, World.log]; rfl, rfl, by simp,
      by simp [Unlock.redraw, World.log], by simp⟩

theorem Unlock_locked_witness :
    ∃ w1 s1, Unlock (soloWorld DDSCAPS_PRIMARYSURFACE true "tombati") 0
        = some (HRESULT.DD_OK, w1) ∧
      w1.surfaces[0]? = some s1 ∧ s1.m_locked = false ∧
      (isTombGame (ctx0 false "tombati") = false → s1.m_buffer = [1, 2, 3, 4]) ∧
      ((hasFlag DDSCAPS_PRIMARYSURFACE DDSCAPS_PRIMARYSURFACE = true ∧
          hasFlag DDSCAPS_PRIMARYSURFACE DDSCAPS_FLIP = false) →
        w1.calls = [] ++ [Call.swapBuffers, Call.setupViewport,
          Call.upload s1.m_desc s1.m_buffer, Call.render]) ∧
      (¬ (hasFlag DDSCAPS_PRIMARYSURFACE DDSCAPS_PRIMARYSURFACE = true ∧
          hasFlag DDSCAPS_PRIMARYSURFACE DDSCAPS_FLIP = false) →
        w1.calls = []) :=
  Unlock_locked (soloWorld DDSCAPS_PRIMARYSURFACE true "tombati") 0 _ rfl rfl
    (fun _ _ _ => by decide)

/-- On a locked stand-alone primary surface under a game identity containing
"tomb", `Unlock` has no result when the scanline copy has none. -/
theorem Unlock_no_result (w : World) (self : Nat) (s : DirectDrawSurface)
    (hs : w.surfaces[self]? = some s) (hl : s.m_locked = true)
    (hp : hasFlag s.m_desc.ddsCaps.dwCaps DDSCAPS_PRIMARYSURFACE = true)
    (hf : hasFlag s.m_desc.ddsCaps.dwCaps DDSCAPS_FLIP = false)
    (ht : isTombGame w.m_context = true)
    (hfix : fixBlackLines s.m_desc.lPitch s.m_desc.dwHeight s.m_buffer = none) :
    Unlock w self = none := by
  simp [Unlock, Unlock.fixLines, hs, hl, hp, hf, ht, hfix]

/-- C10. A stand-alone primary surface of 1 by 3 pixels of 32 bits (pitch 4, 12
bytes) is created and locked under the game identity "tombati"; both calls
succeed. `Unlock` on it has no result: the scanline copy for row 2 writes the
bytes 12 to 15 of a vector of 12. `Unlock` has no result either on the surface
created 0 pixels wide with 2^32 - 1 rows and locked: no copy leaves the empty
buffer, but the loop does not end. With 2 rows instead of 3, and with 3 rows
under another game identity, `Unlock` returns `DD_OK` and makes its four
calls. -/
theorem Unlock_after_Lock_odd_height_no_result :
    lockThenUnlock tombWorld (standAloneDesc 1 3) = some (12, HRESULT.DD_OK, none) ∧
    fixBlackLinesInBounds 4 3 12 = false ∧
    lockThenUnlock tombWorld (standAloneDesc 0 (2 ^ 32 - 1)) = some (0, HRESULT.DD_OK, none) ∧
    lockThenUnlock tombWorld (standAloneDesc 1 2)
      = some (8, HRESULT.DD_OK, some (HRESULT.DD_OK, 4)) ∧
    lockThenUnlock emptyWorld (standAloneDesc 1 3)
      = some (12, HRESULT.DD_OK, some (HRESULT.DD_OK, 4)) := by
  refine ⟨?_, ?_, ?_, ?_, ?_⟩ <;> decide

/-! ## Descriptor resolution (C11, C12) -/

/-- What the constructor appends to the heap, for any fuel of at least 2: a
back buffer followed by its owner when the resolved descriptor asks for back
buffers, a single surface otherwise. -/
theorem construct_eq (n : Nat) (w : World) (desc : DDSURFACEDESC) :
    construct (n + 2) w desc =
      if hasFlag (resolveDesc w.displayDesc desc).dwFlags DDSD_BACKBUFFERCOUNT
          && decide ((resolveDesc w.displayDesc desc).dwBackBufferCount > 0) then
        some ({ w with surfaces := w.surfaces ++
                [freshSurface (resolveDesc w.displayDesc
                    (backBufferDescOf (resolveDesc w.displayDesc desc))) none,
                 freshSurface (frontDescOf (resolveDesc w.displayDesc desc))
                    (some w.surfaces.length)] },
              w.surfaces.length + 1)
      else
        some ({ w with surfaces :=
                  w.surfaces ++ [freshSurface (resolveDesc w.displayDesc desc) none] },
              w.surfaces.length) := by
  have hb := backBufferDescOf_flags (resolveDesc w.displayDesc desc)
  have hchild := construct_plain n w (backBufferDescOf (resolveDesc w.displayDesc desc)) hb.2.2.2
  rw [construct]
  split
  · simp [hchild]
  · rfl

theorem getElem?_append_pair {α : Type} (l : List α) (a b : α) :
    (l ++ [a, b])[l.length + 1]? = some b := by
  rw [List.getElem?_append_right (by omega)]
  simp

/-- The surface the constructor returns carries the resolved width, height,
pitch, pixel format and flags, and a zero-filled buffer of `lPitch * dwHeight`
bytes (a `DWORD` product). -/
theorem construct_created (fuel : Nat) (w : World) (desc : DDSURFACEDESC) (hfuel : 2 ≤ fuel) :
    ∃ w1 p s, construct fuel w desc = some (w1, p) ∧ w1.surfaces[p]? = some s ∧
      s.m_desc.dwWidth = (resolveDesc w.displayDesc desc).dwWidth ∧
      s.m_desc.dwHeight = (resolveDesc w.displayDesc desc).dwHeight ∧
      s.m_desc.lPitch = (resolveDesc w.displayDesc desc).lPitch ∧
      s.m_desc.ddpfPixelFormat = (resolveDesc w.displayDesc desc).ddpfPixelFormat ∧
      s.m_desc.dwFlags = (resolveDesc w.displayDesc desc).dwFlags ∧
      s.m_buffer = List.replicate ((s.m_desc.lPitch * s.m_desc.dwHeight) % 2 ^ 32) 0 := by
  obtain ⟨n, rfl⟩ : ∃ n, fuel = n + 2 := ⟨fuel - 2, by omega⟩
  rw [construct_eq]
  split
  · exact ⟨_, _, freshSurface (frontDescOf (resolveDesc w.displayDesc desc))
      (some w.surfaces.length), rfl, getElem?_append_pair _ _ _, rfl, rfl, rfl, rfl, rfl, rfl⟩
  · exact ⟨_, _, freshSurface (resolveDesc w.displayDesc desc) none, rfl, by simp,
      rfl, rfl, rfl, rfl, rfl, rfl⟩

theorem resolveDesc_size (dd d : DDSURFACEDESC)
    (hw : hasFlag d.dwFlags DDSD_WIDTH = false) (hh : hasFlag d.dwFlags DDSD_HEIGHT = false) :
    (resolveDesc dd d).dwWidth = dd.dwWidth ∧ (resolveDesc dd d).dwHeight = dd.dwHeight ∧
    hasFlag (resolveDesc dd d).dwFlags DDSD_WIDTH = true ∧
    hasFlag (resolveDesc dd d).dwFlags DDSD_HEIGHT = true := by
  rw [hasFlag_DDSD_WIDTH] at hw
  rw [hasFlag_DDSD_HEIGHT] at hh
  simp only [resolveDesc, hasFlag_lor, hasFlag_DDSD_WIDTH, hasFlag_DDSD_HEIGHT,
    hasFlag_DDSD_PIXELFORMAT, hasFlag_DDSD_PITCH]
  cases h3 : d.dwFlags.testBit 3 <;> cases h12 : d.dwFlags.testBit 12 <;>
    simp [hw, hh, h3, h12, DDSD_WIDTH, DDSD_HEIGHT, DDSD_PIXELFORMAT, DDSD_PITCH,
      testBit_flagMasks]

theorem resolveDesc_pitch (dd d : DDSURFACEDESC) (hp : hasFlag d.dwFlags DDSD_PITCH = false) :
    (resolveDesc dd d).lPitch =
      ((resolveDesc dd d).dwWidth * ((resolveDesc dd d).ddpfPixelFormat.dwRGBBitCount / 8))
        % 2 ^ 32 := by
  rw [hasFlag_DDSD_PITCH] at hp
  simp only [resolveDesc, hasFlag_lor, hasFlag_DDSD_WIDTH, hasFlag_DDSD_HEIGHT,
    hasFlag_DDSD_PIXELFORMAT, hasFlag_DDSD_PITCH]
  cases h1 : d.dwFlags.testBit 1 <;> cases h2 : d.dwFlags.testBit 2 <;>
    cases h12 : d.dwFlags.testBit 12 <;>
    simp [hp, h1, h2, h12, DDSD_WIDTH, DDSD_HEIGHT, DDSD_PIXELFORMAT, DDSD_PITCH,
      testBit_flagMasks]

/-- C11. A descriptor with neither the width flag nor the height flag yields,
for any fuel of at least 2, a surface whose width and height are those of the
display mode and whose descriptor has both flags set. -/
theorem construct_adopts_display_size (fuel : Nat) (w : World) (desc : DDSURFACEDESC)
    (hw : hasFlag desc.dwFlags DDSD_WIDTH = false)
    (hh : hasFlag desc.dwFlags DDSD_HEIGHT = false) (hfuel : 2 ≤ fuel) :
    ∃ w1 p s, construct fuel w desc = some (w1, p) ∧ w1.surfaces[p]? = some s ∧
      s.m_desc.dwWidth = w.displayDesc.dwWidth ∧
      s.m_desc.dwHeight = w.displayDesc.dwHeight ∧
      hasFlag s.m_desc.dwFlags DDSD_WIDTH = true ∧
      hasFlag s.m_desc.dwFlags DDSD_HEIGHT = true := by
  obtain ⟨w1, p, s, e, hs, h1, h2, -, -, h5, -⟩ := construct_created fuel w desc hfuel
  obtain ⟨r1, r2, r3, r4⟩ := resolveDesc_size w.displayDesc desc hw hh
  exact ⟨w1, p, s, e, hs, h1.trans r1, h2.trans r2, by rw [h5]; exact r3, by rw [h5]; exact r4⟩

theorem construct_adopts_display_size_witness :
    ∃ w1 p s, construct 2 emptyWorld (bareDesc DDSCAPS_PRIMARYSURFACE) = some (w1, p) ∧
      w1.surfaces[p]? = some s ∧
      s.m_desc.dwWidth = 640 ∧ s.m_desc.dwHeight = 480 ∧
      hasFlag s.m_desc.dwFlags DDSD_WIDTH = true ∧
      hasFlag s.m_desc.dwFlags DDSD_HEIGHT = true :=
  construct_adopts_display_size 2 emptyWorld (bareDesc DDSCAPS_PRIMARYSURFACE) (by decide)
    (by decide) (by decide)

/-- C12, as stated, fails: for a width of 2^30 pixels of 32 bits and no pitch
given the product 2^30 * 4 does not fit a `DWORD` and the pitch of the created
surface is 0. -/
theorem construct_pitch_wraps :
    hasFlag wideDesc.dwFlags DDSD_PITCH = false ∧
    (construct 2 emptyWorld wideDesc).map
        (fun p => p.1.surfaces.map
          (fun s => (s.m_desc.dwWidth, s.m_desc.ddpfPixelFormat.dwRGBBitCount, s.m_desc.lPitch)))
      = some [(2 ^ 30, 32, 0)] := by
  constructor
  · decide
  · rfl

/-- C12, amended. A descriptor without the pitch flag yields, for any fuel of at
least 2, a surface whose pitch is its resolved width times its resolved bit
count divided by 8, reduced modulo 2^32; this is the product itself whenever
the product is below 2^31. -/
theorem construct_pitch (fuel : Nat) (w : World) (desc : DDSURFACEDESC)
    (hp : hasFlag desc.dwFlags DDSD_PITCH = false) (hfuel : 2 ≤ fuel) :
    ∃ w1 p s, construct fuel w desc = some (w1, p) ∧ w1.surfaces[p]? = some s ∧
      s.m_desc.lPitch
        = (s.m_desc.dwWidth * (s.m_desc.ddpfPixelFormat.dwRGBBitCount / 8)) % 2 ^ 32 ∧
      (s.m_desc.dwWidth * (s.m_desc.ddpfPixelFormat.dwRGBBitCount / 8) < 2 ^ 31 →
        s.m_desc.lPitch = s.m_desc.dwWidth * (s.m_desc.ddpfPixelFormat.dwRGBBitCount / 8)) := by
  obtain ⟨w1, p, s, e, hs, h1, -, h3, h4, -, -⟩ := construct_created fuel w desc hfuel
  have hr := resolveDesc_pitch w.displayDesc desc hp
  have hmod : s.m_desc.lPitch
      = (s.m_desc.dwWidth * (s.m_desc.ddpfPixelFormat.dwRGBBitCount / 8)) % 2 ^ 32 := by
    rw [h3, h1, h4]; exact hr
  refine ⟨w1, p, s, e, hs, hmod, fun hlt => ?_⟩
  rw [hmod]
  exact Nat.mod_eq_of_lt (by omega)

theorem construct_pitch_witness :
    ∃ w1 p s, construct 2 emptyWorld exampleDesc = some (w1, p) ∧
      w1.surfaces[p]? = some s ∧
      s.m_desc.lPitch
        = (s.m_desc.dwWidth * (s.m_desc.ddpfPixelFormat.dwRGBBitCount / 8)) % 2 ^ 32 ∧
      (s.m_desc.dwWidth * (s.m_desc.ddpfPixelFormat.dwRGBBitCount / 8) < 2 ^ 31 →
        s.m_desc.lPitch = s.m_desc.dwWidth * (s.m_desc.ddpfPixelFormat.dwRGBBitCount / 8)) :=
  construct_pitch 2 emptyWorld exampleDesc (by decide) (by decide)

/-! ## Attachments (C13, C14) -/

/-- C13, as stated, fails: the back buffer built by the constructor of a surface
with the ZBuffer capability has that capability too; attaching it succeeds and
from then on it is the answer to the DepthBuffer query and also to the
BackBuffer query. -/
theorem attach_own_back_buffer_both_roles :
    attachOwnBackBuffer
      = some (DDSCAPS_ZBUFFER ||| DDSCAPS_BACKBUFFER ||| DDSCAPS_FLIP, HRESULT.DD_OK,
          (HRESULT.DD_OK, some (some 0)), (HRESULT.DD_OK, some (some 0))) := by
  rfl

/-- C13, amended. Attaching a surface with the ZBuffer capability returns
`DD_OK`; afterwards every DepthBuffer query (ZBuffer bit, no BackBuffer bit)
returns that surface and every BackBuffer query returns what it returned before
the attach, hence not that surface unless it already was the back buffer.
Attaching a surface with neither capability returns CannotAttachSurface and
leaves the world, so both attachments, as it was. -/
theorem AddAttachedSurface_routes (w : World) (self ps : Nat) (s p : DirectDrawSurface)
    (hs : w.surfaces[self]? = some s) (hp : w.surfaces[ps]? = some p) :
    (hasFlag p.m_desc.ddsCaps.dwCaps DDSCAPS_ZBUFFER = true →
      ∃ w1, AddAttachedSurface w self (some ps) = some (HRESULT.DD_OK, w1) ∧
        (∀ q, hasFlag q DDSCAPS_BACKBUFFER = false → hasFlag q DDSCAPS_ZBUFFER = true →
          GetAttachedSurface w1 self q = some (HRESULT.DD_OK, some (some ps))) ∧
        (∀ q, hasFlag q DDSCAPS_BACKBUFFER = true →
          GetAttachedSurface w1 self q = GetAttachedSurface w self q ∧
          GetAttachedSurface w1 self q = some (HRESULT.DD_OK, some s.m_backBuffer)) ∧
        (s.m_backBuffer ≠ some ps → ∀ q, hasFlag q DDSCAPS_BACKBUFFER = true →
          GetAttachedSurface w1 self q ≠ some (HRESULT.DD_OK, some (some ps)))) ∧
    (hasFlag p.m_desc.ddsCaps.dwCaps DDSCAPS_ZBUFFER = false →
      hasFlag p.m_desc.ddsCaps.dwCaps DDSCAPS_BACKBUFFER = false →
      AddAttachedSurface w self (some ps) = some (HRESULT.DDERR_CANNOTATTACHSURFACE, w)) := by
  constructor
  · intro hz
    have hget : (w.update self (fun x => { x with m_depthBuffer := some ps })).surfaces[self]?
        = some { s with m_depthBuffer := some ps } := by
      simp [update_get, hs]
    refine ⟨w.update self (fun x => { x with m_depthBuffer := some ps }), ?_, ?_, ?_, ?_⟩
    · simp [AddAttachedSurface, hs, hp, hz]
    · intro q hb hzq
      simp [GetAttachedSurface, hget, hb, hzq]
    · intro q hb
      simp [GetAttachedSurface, hget, hs, hb]
    · intro hne q hb
      simp [GetAttachedSurface, hget, hb, hne]
  · intro hz hb
    simp [AddAttachedSurface, hs, hp, hz, hb]

theorem AddAttachedSurface_routes_witness :
    AddAttachedSurface (soloWorld DDSCAPS_PRIMARYSURFACE false "") 0 (some 0)
      = some (HRESULT.DDERR_CANNOTATTACHSURFACE, soloWorld DDSCAPS_PRIMARYSURFACE false "") ∧
    ∃ w1, AddAttachedSurface (depthWorld none) 0 (some 2) = some (HRESULT.DD_OK, w1) ∧
      (∀ q, hasFlag q DDSCAPS_BACKBUFFER = false → hasFlag q DDSCAPS_ZBUFFER = true →
        GetAttachedSurface w1 0 q = some (HRESULT.DD_OK, some (some 2))) ∧
      (∀ q, hasFlag q DDSCAPS_BACKBUFFER = true →
        GetAttachedSurface w1 0 q = GetAttachedSurface (depthWorld none) 0 q ∧
        GetAttachedSurface w1 0 q = some (HRESULT.DD_OK, some (some 1))) ∧
      (some 1 ≠ some 2 → ∀ q, hasFlag q DDSCAPS_BACKBUFFER = true →
        GetAttachedSurface w1 0 q ≠ some (HRESULT.DD_OK, some (some 2))) :=
  ⟨(AddAttachedSurface_routes (soloWorld DDSCAPS_PRIMARYSURFACE false "") 0 0 _ _ rfl rfl).2
      (by decide) (by decide),
   (AddAttachedSurface_routes (depthWorld none) 0 2 _ _ rfl rfl).1
      (by decide)⟩

/-- C14. On a surface with no back buffer and no depth buffer the BackBuffer
query and the DepthBuffer query both return `DD_OK` and store a null pointer;
SurfaceNotAttached is the answer to a query that names neither role. -/
theorem GetAttachedSurface_null_is_ok :
    GetAttachedSurface (soloWorld DDSCAPS_PRIMARYSURFACE false "") 0 DDSCAPS_BACKBUFFER
      = some (HRESULT.DD_OK, some none) ∧
    GetAttachedSurface (soloWorld DDSCAPS_PRIMARYSURFACE false "") 0 DDSCAPS_ZBUFFER
      = some (HRESULT.DD_OK, some none) ∧
    GetAttachedSurface (soloWorld DDSCAPS_PRIMARYSURFACE false "") 0 DDSCAPS_FLIP
      = some (HRESULT.DDERR_SURFACENOTATTACHED, none) := by
  refine ⟨?_, ?_, ?_⟩ <;> rfl

/-- The answers of `GetAttachedSurface` in general: the back-buffer pointer for
a query with the BackBuffer bit, the depth-buffer pointer for a query with the
ZBuffer bit and no BackBuffer bit, each with `DD_OK` and whether or not the
pointer is null; SurfaceNotAttached for any other query. -/
theorem GetAttachedSurface_answers (w : World) (self q : Nat) (s : DirectDrawSurface)
    (hs : w.surfaces[self]? = some s) :
    (hasFlag q DDSCAPS_BACKBUFFER = true →
      GetAttachedSurface w self q = some (HRESULT.DD_OK, some s.m_backBuffer)) ∧
    (hasFlag q DDSCAPS_BACKBUFFER = false → hasFlag q DDSCAPS_ZBUFFER = true →
      GetAttachedSurface w self q = some (HRESULT.DD_OK, some s.m_depthBuffer)) ∧
    (hasFlag q DDSCAPS_BACKBUFFER = false → hasFlag q DDSCAPS_ZBUFFER = false →
      GetAttachedSurface w self q = some (HRESULT.DDERR_SURFACENOTATTACHED, none)) := by
  refine ⟨fun hb => ?_, fun hb hz => ?_, fun hb hz => ?_⟩
  · simp [GetAttachedSurface, hs, hb]
  · simp [GetAttachedSurface, hs, hb, hz]
  · simp [GetAttachedSurface, hs, hb, hz]

/-! ## Clear (C17, C18) -/

theorem mapM_option_eq_some {α β : Type} (f : α → Option β) (g : α → β) (l : List α)
    (h : ∀ a ∈ l, f a = some (g a)) : l.mapM f = some (l.map g) := by
  induction l with
  | nil => rw [List.mapM_nil]; rfl
  | cons a l ih =>
    rw [List.mapM_cons, h a (List.mem_cons_self _ _),
      ih (fun x hx => h x (List.mem_cons_of_mem _ hx))]
    rfl

theorem mapM_option_length {α β : Type} (f : α → Option β) (l : List α) (r : List β)
    (h : l.mapM f = some r) : r.length = l.length := by
  induction l generalizing r with
  | nil =>
    rw [List.mapM_nil] at h
    cases h
    rfl
  | cons a l ih =>
    rw [List.mapM_cons] at h
    cases hfa : f a with
    | none => rw [hfa] at h; cases h
    | some b =>
      cases hl : l.mapM f with
      | none => rw [hfa, hl] at h; cases h
      | some bs =>
        rw [hfa, hl] at h
        cases h
        simp [ih bs hl]

theorem mapM_option_eq_none {α β : Type} (f : α → Option β) (l : List α) (a : α)
    (ha : a ∈ l) (hf : f a = none) : l.mapM f = none := by
  induction l with
  | nil => cases ha
  | cons x l ih =>
    rw [List.mapM_cons]
    rcases List.mem_cons.mp ha with h | h
    · subst h
      rw [hf]; rfl
    · rw [ih h]
      cases f x <;> rfl

theorem clearBuffer_length (bits color : Nat) (buf r : List Nat)
    (h : clearBuffer bits color buf = some r) : r.length = buf.length := by
  unfold clearBuffer at h
  split at h
  · cases h
    simp
  · split at h
    · rw [mapM_option_length _ _ _ h]
      simp
    · cases h
      rfl

/-- The surface left by `clear` when the fill of the buffer has a result. -/
theorem clear_get (w : World) (self color : Nat) (s : DirectDrawSurface) (buf : List Nat)
    (hs : w.surfaces[self]? = some s)
    (hcb : clearBuffer s.m_desc.ddpfPixelFormat.dwRGBBitCount color s.m_buffer = some buf) :
    ∃ w1, clear w self color = some w1 ∧
      w1.surfaces[self]? = some { s with m_buffer := buf, m_dirty := true } ∧
      (∀ j, j ≠ self → w1.surfaces[j]? = w.surfaces[j]?) ∧
      w1.calls = w.calls ∧ w1.m_context = w.m_context ∧ w1.displayDesc = w.displayDesc := by
  refine ⟨{ w with surfaces := (w.surfaces.set self { s with m_buffer := buf, m_dirty := true }) },
    by simp only [clear, hs, hcb, Option.map_some'], ?_, ?_, rfl, rfl, rfl⟩
  · simp [List.getElem?_set_self', hs]
  · intro j hj
    simp [List.getElem?_set_ne (Ne.symm hj)]

/-- `clear` has no result when the fill of the buffer has none. -/
theorem clear_none (w : World) (self color : Nat) (s : DirectDrawSurface)
    (hs : w.surfaces[self]? = some s)
    (hcb : clearBuffer s.m_desc.ddpfPixelFormat.dwRGBBitCount color s.m_buffer = none) :
    clear w self color = none := by
  simp only [clear, hs, hcb, Option.map_none']

/-- What a result of `clear` tells about the call. -/
theorem clear_some (w : World) (self color : Nat) (w1 : World)
    (h : clear w self color = some w1) :
    ∃ s buf, w.surfaces[self]? = some s ∧
      clearBuffer s.m_desc.ddpfPixelFormat.dwRGBBitCount color s.m_buffer = some buf ∧
      w1.surfaces[self]? = some { s with m_buffer := buf, m_dirty := true } ∧
      (∀ j, j ≠ self → w1.surfaces[j]? = w.surfaces[j]?) := by
  cases hs : w.surfaces[self]? with
  | none => simp [clear, hs] at h
  | some s =>
    cases hcb : clearBuffer s.m_desc.ddpfPixelFormat.dwRGBBitCount color s.m_buffer with
    | none => rw [clear_none w self color s hs hcb] at h; cases h
    | some buf =>
      obtain ⟨w2, e, h2, h3, -⟩ := clear_get w self color s buf hs hcb
      rw [e] at h
      cases h
      exact ⟨s, buf, rfl, hcb, h2, h3⟩

/-- With the colour 0 the buffer is set to zeros, whatever the bit count. -/
theorem clearBuffer_zero (bits : Nat) (buf : List Nat) :
    clearBuffer bits 0 buf = some (List.replicate buf.length 0) := by
  simp [clearBuffer]

/-- C17. On a surface with a non-empty buffer, whatever its bit count, `clear(0)`
leaves a buffer of the same length whose bytes are all 0, sets the dirty flag
and keeps the descriptor. -/
theorem clear_zero (w : World) (self : Nat) (s : DirectDrawSurface)
    (hs : w.surfaces[self]? = some s) (_hne : s.m_buffer ≠ []) :
    ∃ w1 s1, clear w self 0 = some w1 ∧ w1.surfaces[self]? = some s1 ∧
      (∀ b ∈ s1.m_buffer, b = 0) ∧ s1.m_buffer.length = s.m_buffer.length ∧
      s1.m_dirty = true ∧ s1.m_desc = s.m_desc := by
  obtain ⟨w1, e, h1, -⟩ := clear_get w self 0 s _ hs (clearBuffer_zero _ _)
  refine ⟨w1, _, e, h1, ?_, by simp, rfl, rfl⟩
  intro b hb
  exact (List.mem_replicate.mp hb).2

theorem clear_zero_witness :
    ∃ w1 s1, clear (soloWorld DDSCAPS_PRIMARYSURFACE false "") 0 0 = some w1 ∧
      w1.surfaces[0]? = some s1 ∧
      (∀ b ∈ s1.m_buffer, b = 0) ∧ s1.m_buffer.length = [1, 2, 3, 4].length ∧
      s1.m_dirty = true ∧ s1.m_desc = mkDesc 1 2 2 DDSCAPS_PRIMARYSURFACE :=
  clear_zero (soloWorld DDSCAPS_PRIMARYSURFACE false "") 0 _ rfl (by decide)

/-- The bytes written by `clear` for the bit counts 8, 16, 24 and 32. -/
theorem clearBuffer_bytes (bits color : Nat) (buf : List Nat)
    (hbits : bits = 8 ∨ bits = 16 ∨ bits = 24 ∨ bits = 32) (hlen : buf.length < 2 ^ 28) :
    ∃ r, clearBuffer bits color buf = some r ∧ r.length = buf.length ∧
      ∀ i, i < buf.length →
        r[i]? = some ((color >>> (8 * (i % (bits / 8)))) &&& 0xFF) := by
  by_cases hm : bits = 8 ∨ color = 0
  · refine ⟨List.replicate buf.length (color &&& 0xff), ?_, by simp, ?_⟩
    · unfold clearBuffer
      rw [if_pos hm]
    · intro i hi
      rw [List.getElem?_replicate_of_lt hi]
      rcases hm with h | h
      · subst h
        simp [Nat.mod_one]
      · subst h
        simp
  · refine ⟨(List.range buf.length).map
        (fun i => (color >>> (8 * (i % (bits / 8)))) &&& 0xFF), ?_, by simp, ?_⟩
    · have h8 : bits % 8 = 0 := by rcases hbits with h | h | h | h <;> subst h <;> rfl
      unfold clearBuffer
      rw [if_neg hm, if_pos h8]
      apply mapM_option_eq_some
      intro i hi
      rw [List.mem_range] at hi
      have hi8 : i * 8 % 4294967296 = i * 8 := Nat.mod_eq_of_lt (by omega)
      rcases hbits with h | h | h | h <;> subst h
      · simp at hm
      · have e : i * 8 % 16 = 8 * (i % 2) := by omega
        have hlt : 8 * (i % 2) < 32 := by omega
        simp [clearByte, hi8, e, hlt]
      · have e : i * 8 % 24 = 8 * (i % 3) := by omega
        have hlt : 8 * (i % 3) < 32 := by omega
        simp [clearByte, hi8, e, hlt]
      · have e : i * 8 % 32 = 8 * (i % 4) := by omega
        have hlt : 8 * (i % 4) < 32 := by omega
        simp [clearByte, hi8, e, hlt]
    · intro i hi
      simp [hi]

/-- C18. On a surface of bit count 8, 16, 24 or 32 whose buffer is shorter than
2^28 bytes, `clear(colour)` with a 32-bit colour keeps the length of the buffer
and leaves in byte `i` the value `(colour >> (8 * (i mod (bitCount / 8)))) & 0xFF`. -/
theorem clear_bytes (w : World) (self color : Nat) (s : DirectDrawSurface)
    (hs : w.surfaces[self]? = some s)
    (hbits : s.m_desc.ddpfPixelFormat.dwRGBBitCount = 8 ∨
      s.m_desc.ddpfPixelFormat.dwRGBBitCount = 16 ∨
      s.m_desc.ddpfPixelFormat.dwRGBBitCount = 24 ∨
      s.m_desc.ddpfPixelFormat.dwRGBBitCount = 32)
    (hlen : s.m_buffer.length < 2 ^ 28) (_hcolor : color < 2 ^ 32) :
    ∃ w1 s1, clear w self color = some w1 ∧ w1.surfaces[self]? = some s1 ∧
      s1.m_buffer.length = s.m_buffer.length ∧
      ∀ i, i < s.m_buffer.length →
        s1.m_buffer[i]? = some ((color >>> (8 * (i %
          (s.m_desc.ddpfPixelFormat.dwRGBBitCount / 8)))) &&& 0xFF) := by
  obtain ⟨r, hr, hrl, hri⟩ := clearBuffer_bytes _ color s.m_buffer hbits hlen
  obtain ⟨w1, e, h1, -⟩ := clear_get w self color s r hs hr
  exact ⟨w1, _, e, h1, hrl, hri⟩

theorem clear_bytes_witness :
    ∃ w1 s1, clear (soloWorld DDSCAPS_PRIMARYSURFACE false "") 0 0x11223344 = some w1 ∧
      w1.surfaces[0]? = some s1 ∧
      s1.m_buffer.length = [1, 2, 3, 4].length ∧
      ∀ i, i < [1, 2, 3, 4].length →
        s1.m_buffer[i]? = some ((0x11223344 >>> (8 * (i % (pf32.dwRGBBitCount / 8)))) &&& 0xFF) :=
  clear_bytes (soloWorld DDSCAPS_PRIMARYSURFACE false "") 0 0x11223344 _ rfl
    (Or.inr (Or.inr (Or.inr rfl))) (by decide) (by decide)

/-! ## Blt (C15, C16, C20) -/

theorem copyRow_length (src : List Nat) (srcOff : Nat) (dst : List Nat) (dstOff n : Nat) :
    (Blitter.copyRow src srcOff dst dstOff n).length = dst.length :=
  foldl_length _ (fun _ _ => by simp) _ _

theorem blit_length (src : Blitter.Image) (sr : Blitter.Rect) (dst : Blitter.Image)
    (dr : Blitter.Rect) : (Blitter.blit src sr dst dr).length = dst.buffer.length :=
  foldl_length _ (fun _ _ => copyRow_length _ _ _ _ _) _ _

/-- The copy branch of `Blt`: surface `self` becomes dirty and its buffer is what
the blit engine returns for the views of lines 191 and 192; nothing else
changes. -/
theorem Blt_copy_spec (w : World) (self src : Nat) (dr sr : Option Blitter.Rect)
    (s p : DirectDrawSurface) (hs : w.surfaces[self]? = some s)
    (hp : w.surfaces[src]? = some p) :
    ∃ w1, Blt.copy w self dr src sr = some w1 ∧
      w1.surfaces[self]? = some
        { s with m_dirty := true,
                 m_buffer := Blitter.blit (Blt.srcImage s p)
                   (Blt.rectOr (Blt.srcImage s p) sr) (Blt.dstImage s)
                   (Blt.rectOr (Blt.dstImage s) dr) } ∧
      (∀ j, j ≠ self → w1.surfaces[j]? = w.surfaces[j]?) ∧
      w1.calls = w.calls ∧ w1.m_context = w.m_context ∧ w1.displayDesc = w.displayDesc := by
  by_cases h : self = src
  · subst h
    have e : p = s := by rw [hs] at hp; exact (Option.some.inj hp).symm
    subst e
    refine ⟨_, by simp [Blt.copy, update_get, hs]; rfl, ?_, ?_, ?_, ?_, ?_⟩
    · simp [update_get, hs]
      rfl
    · intro j hj
      simp [update_get, Ne.symm hj]
    · simp
    · simp
    · simp
  · refine ⟨_, by simp [Blt.copy, update_get, hs, hp, h]; rfl, ?_, ?_, ?_, ?_, ?_⟩
    · simp [update_get, hs]
      rfl
    · intro j hj
      simp [update_get, Ne.symm hj]
    · simp
    · simp
    · simp

/-- The colour fill of `Blt` when the fill of the buffer, if asked for, has the
result `buf`: surface `self` holds `buf` and is dirty if it was or if the fill
was asked for; nothing else changes. -/
theorem Blt_colorFill_spec (w : World) (self flags color : Nat) (s : DirectDrawSurface)
    (buf : List Nat) (hs : w.surfaces[self]? = some s)
    (hcb : (if hasFlag flags DDBLT_COLORFILL = true then
        clearBuffer s.m_desc.ddpfPixelFormat.dwRGBBitCount color s.m_buffer
      else some s.m_buffer) = some buf) :
    ∃ wa, Blt.colorFill w self flags color = some wa ∧
      wa.surfaces[self]? = some
        { s with m_buffer := buf, m_dirty := s.m_dirty || hasFlag flags DDBLT_COLORFILL } ∧
      (∀ j, j ≠ self → wa.surfaces[j]? = w.surfaces[j]?) := by
  unfold Blt.colorFill
  by_cases hcf : hasFlag flags DDBLT_COLORFILL = true
  · rw [if_pos hcf] at hcb
    obtain ⟨wa, e, ha, hother, -⟩ := clear_get w self color s buf hs hcb
    refine ⟨wa, by rw [if_pos hcf]; exact e, ?_, hother⟩
    rw [ha, hcf]
    simp
  · rw [if_neg hcf] at hcb
    cases hcb
    have hcf' : hasFlag flags DDBLT_COLORFILL = false := by simpa using hcf
    refine ⟨w, by rw [if_neg hcf], ?_, fun _ _ => rfl⟩
    rw [hs, hcf']
    simp

/-- The depth fill of `Blt` on a surface whose depth-buffer pointer, if any, is
valid: it has a result, and surface `self` is changed only when the fill is
asked for and the surface is its own depth buffer; its buffer is then set to
zeros. -/
theorem Blt_depthFill_spec (w : World) (self flags : Nat) (sa : DirectDrawSurface)
    (ha : w.surfaces[self]? = some sa)
    (hdepth : ∀ d, sa.m_depthBuffer = some d → ∃ k, w.surfaces[d]? = some k) :
    ∃ wb sb, Blt.depthFill w self flags = some wb ∧ wb.surfaces[self]? = some sb ∧
      sb.m_buffer = (if hasFlag flags DDBLT_DEPTHFILL = true ∧ sa.m_depthBuffer = some self
        then List.replicate sa.m_buffer.length 0 else sa.m_buffer) ∧
      (sa.m_dirty = true → sb.m_dirty = true) := by
  simp only [Blt.depthFill, ha]
  by_cases hdf : hasFlag flags DDBLT_DEPTHFILL = true
  · rw [if_pos hdf]
    cases hz : sa.m_depthBuffer with
    | none => exact ⟨w, sa, rfl, ha, by simp, fun h => h⟩
    | some d =>
      by_cases hself : d = self
      · subst hself
        obtain ⟨wb, e, hb, -⟩ := clear_get w d 0 sa _ ha (clearBuffer_zero _ _)
        exact ⟨wb, _, e, hb, by simp [hdf], fun _ => rfl⟩
      · obtain ⟨k, hk⟩ := hdepth d hz
        obtain ⟨wb, e, -, hoth, -⟩ := clear_get w d 0 k _ hk (clearBuffer_zero _ _)
        refine ⟨wb, sa, e, by rw [hoth self (fun h => hself h.symm)]; exact ha, ?_, fun h => h⟩
        rw [if_neg]
        rintro ⟨-, h⟩
        exact hself (Option.some.inj h)
  · rw [if_neg hdf]
    refine ⟨w, sa, rfl, ha, ?_, fun h => h⟩
    rw [if_neg]
    exact fun h => hdf h.1

/-- The fill part of `Blt` outside the short-circuit, on a surface whose
depth-buffer pointer, if any, is valid, when the colour fill of the buffer, if
asked for, has the result `buf`: it returns `DD_OK` and surface `self` holds
`buf`, or zeros when the depth fill is asked for as well and the surface is its
own depth buffer. -/
theorem Blt_fill_spec (r : Bool) (w : World) (self flags color : Nat)
    (s : DirectDrawSurface) (buf : List Nat) (hs : w.surfaces[self]? = some s)
    (hsc : (r && hasFlag s.m_desc.ddsCaps.dwCaps DDSCAPS_PRIMARYSURFACE) = false)
    (hdepth : ∀ d, s.m_depthBuffer = some d → ∃ k, w.surfaces[d]? = some k)
    (hcb : (if hasFlag flags DDBLT_COLORFILL = true then
        clearBuffer s.m_desc.ddpfPixelFormat.dwRGBBitCount color s.m_buffer
      else some s.m_buffer) = some buf) :
    ∃ w1 s1, Blt.fill r w self flags color = some (HRESULT.DD_OK, w1) ∧
      w1.surfaces[self]? = some s1 ∧
      s1.m_buffer = (if hasFlag flags DDBLT_DEPTHFILL = true ∧ s.m_depthBuffer = some self
        then List.replicate buf.length 0 else buf) ∧
      (s.m_dirty = true → s1.m_dirty = true) := by
  obtain ⟨wa, e1, ha, hother⟩ := Blt_colorFill_spec w self flags color s buf hs hcb
  have hdepth' : ∀ d,
      ({ s with m_buffer := buf,
                m_dirty := s.m_dirty || hasFlag flags DDBLT_COLORFILL }).m_depthBuffer = some d →
      ∃ k, wa.surfaces[d]? = some k := by
    intro d hd
    by_cases hself : d = self
    · subst hself
      exact ⟨_, ha⟩
    · obtain ⟨k, hk⟩ := hdepth d hd
      exact ⟨k, by rw [hother d hself]; exact hk⟩
  obtain ⟨wb, sb, e2, hb, hbuf, hdirty⟩ := Blt_depthFill_spec wa self flags _ ha hdepth'
  refine ⟨wb, sb, ?_, hb, hbuf, ?_⟩
  · simp only [Blt.fill, hs, hsc, e1, e2, Option.some_bind, Bool.false_eq_true, if_false]
  · intro hd
    apply hdirty
    simp [hd]

/-- On an unlocked destination with a valid source surface, whatever the two
rectangles, `Blt` returns `DD_OK` and the destination is dirty afterwards,
provided that the colour fill, when the flags ask for it, has a result on a
buffer of the destination's length. -/
theorem Blt_with_source_marks_dirty (w : World) (self src : Nat)
    (dr sr : Option Blitter.Rect) (flags color : Nat) (s p : DirectDrawSurface)
    (hs : w.surfaces[self]? = some s) (hun : s.m_locked = false)
    (hp : w.surfaces[src]? = some p)
    (hdepth : ∀ d, s.m_depthBuffer = some d → ∃ k, w.surfaces[d]? = some k)
    (hfill : hasFlag flags DDBLT_COLORFILL = true → ∀ buf : List Nat,
      buf.length = s.m_buffer.length →
      (clearBuffer s.m_desc.ddpfPixelFormat.dwRGBBitCount color buf).isSome = true) :
    ∃ w1 s1, Blt w self dr (some src) sr flags color = some (HRESULT.DD_OK, w1) ∧
      w1.surfaces[self]? = some s1 ∧ s1.m_dirty = true := by
  obtain ⟨wc, ec, hc, hother, -⟩ := Blt_copy_spec w self src dr sr s p hs hp
  have hdepth' : ∀ d, s.m_depthBuffer = some d →
      ∃ k, ({ wc with m_context := (wc.m_context.isRendered).2 }.log
        Call.isRendered).surfaces[d]? = some k := by
    intro d hd
    by_cases hself : d = self
    · subst hself
      exact ⟨_, hc⟩
    · obtain ⟨k, hk⟩ := hdepth d hd
      exact ⟨k, by rw [← hk]; exact hother d hself⟩
  have hcb : ∃ buf, (if hasFlag flags DDBLT_COLORFILL = true then
        clearBuffer s.m_desc.ddpfPixelFormat.dwRGBBitCount color
          (Blitter.blit (Blt.srcImage s p) (Blt.rectOr (Blt.srcImage s p) sr) (Blt.dstImage s)
            (Blt.rectOr (Blt.dstImage s) dr))
      else some (Blitter.blit (Blt.srcImage s p) (Blt.rectOr (Blt.srcImage s p) sr)
        (Blt.dstImage s) (Blt.rectOr (Blt.dstImage s) dr))) = some buf := by
    by_cases hcf : hasFlag flags DDBLT_COLORFILL = true
    · rw [if_pos hcf]
      exact Option.isSome_iff_exists.mp (hfill hcf _ (by rw [blit_length]; rfl))
    · rw [if_neg hcf]
      exact ⟨_, rfl⟩
  obtain ⟨buf, hbuf⟩ := hcb
  obtain ⟨w1, s1, e1, h1, -, hd1⟩ := Blt_fill_spec false
    ({ wc with m_context := (wc.m_context.isRendered).2 }.log Call.isRendered)
    self flags color _ buf hc rfl hdepth' hbuf
  refine ⟨w1, s1, ?_, h1, hd1 rfl⟩
  simp only [Blt, BltWith, hs, hun, Blt.copyIfSource, ec, Option.some_bind, Bool.false_eq_true,
    if_false, Context.isRendered]
  exact e1

/-- C15. A surface of 1 by 1 pixels with pitch 4 and bit count 0 is created (4
bytes, not locked) and a 32-bit surface is blitted onto it. With the colour-fill
flag and the fill colour 1 `Blt` has no result: the generator of `clear` takes
the remainder of 0 by the bit count 0 for the first byte. Without the flag, and
on a 32-bit destination with the flag, `Blt` returns `DD_OK` and the
destination is dirty. -/
theorem Blt_color_fill_zero_bit_count_no_result :
    blitOnto zeroBitDesc DDBLT_COLORFILL 1 = some (false, [0, 0, 0, 0], none) ∧
    clearByte 0 1 0 = none ∧
    blitOnto zeroBitDesc 0 1
      = some (false, [0, 0, 0, 0], some (HRESULT.DD_OK, some (true, [0, 0, 0, 0]))) ∧
    blitOnto (mkDesc 1 1 4 0) DDBLT_COLORFILL 1
      = some (false, [0, 0, 0, 0], some (HRESULT.DD_OK, some (true, [1, 0, 0, 0]))) := by
  refine ⟨?_, ?_, ?_, ?_⟩ <;> rfl

/-- C20, as stated, fails: in a blit from the 16-bit surface 1 onto the 32-bit
surface 0 the view of the source carries 4 bytes per pixel, the value of the
destination, while the source's own bit count gives 2. -/
theorem Blt_source_view_has_destination_depth :
    Blt.srcImage surface32 surface16 = { width := 2, height := 1, depth := 4,
                                          buffer := [1, 2, 3, 4] } ∧
    toInt32 (surface16.m_desc.ddpfPixelFormat.dwRGBBitCount / 8) = 2 ∧
    (Blt.copy mixedWorld 0 none 1 none).bind (fun w1 => (w1.surfaces[0]?).map (fun x => x.m_buffer))
      = some (Blitter.blit { width := 2, height := 1, depth := 4, buffer := [1, 2, 3, 4] }
          ⟨0, 0, 2, 1⟩ { width := 1, height := 1, depth := 4, buffer := [5, 6, 7, 8] }
          ⟨0, 0, 1, 1⟩) := by
  refine ⟨?_, ?_, ?_⟩ <;> decide

/-- C20, amended. In a blit with a source, the buffer left in the destination is
what the blit engine returns for these two views: the source view carries the
source's width and height (as `int32_t`), the source's buffer and the bytes per
pixel of the destination (destination bit count / 8); the destination view
carries the destination's own width, height, bytes per pixel and buffer. -/
theorem Blt_views (w : World) (self src : Nat) (dr sr : Option Blitter.Rect)
    (s p : DirectDrawSurface) (hs : w.surfaces[self]? = some s)
    (hp : w.surfaces[src]? = some p) :
    ∃ w1 s1, Blt.copy w self dr src sr = some w1 ∧ w1.surfaces[self]? = some s1 ∧
      s1.m_buffer =
        Blitter.blit
          { width := toInt32 p.m_desc.dwWidth, height := toInt32 p.m_desc.dwHeight,
            depth := toInt32 (s.m_desc.ddpfPixelFormat.dwRGBBitCount / 8),
            buffer := p.m_buffer }
          (Blt.rectOr (Blt.srcImage s p) sr)
          { width := toInt32 s.m_desc.dwWidth, height := toInt32 s.m_desc.dwHeight,
            depth := toInt32 (s.m_desc.ddpfPixelFormat.dwRGBBitCount / 8),
            buffer := s.m_buffer }
          (Blt.rectOr (Blt.dstImage s) dr) := by
  obtain ⟨w1, e, h1, -⟩ := Blt_copy_spec w self src dr sr s p hs hp
  exact ⟨w1, _, e, h1, rfl⟩

theorem Blt_views_witness :
    ∃ w1 s1, Blt.copy mixedWorld 0 none 1 none = some w1 ∧ w1.surfaces[0]? = some s1 ∧
      s1.m_buffer =
        Blitter.blit
          { width := toInt32 2, height := toInt32 1, depth := toInt32 (32 / 8),
            buffer := [1, 2, 3, 4] }
          (Blt.rectOr (Blt.srcImage surface32 surface16) none)
          { width := toInt32 1, height := toInt32 1, depth := toInt32 (32 / 8),
            buffer := [5, 6, 7, 8] }
          (Blt.rectOr (Blt.dstImage surface32) none) :=
  Blt_views mixedWorld 0 1 none none surface32 surface16 rfl rfl

/-! ## The buffer-length invariant (C19) -/

theorem SameShapes_refl (w : World) : SameShapes w w := fun _ => rfl

theorem SameShapes_trans {w w1 w2 : World} (h1 : SameShapes w w1) (h2 : SameShapes w1 w2) :
    SameShapes w w2 := fun j => (h2 j).trans (h1 j)

theorem SameShapes_of_surfaces_eq {w w1 : World} (h : w1.surfaces = w.surfaces) :
    SameShapes w w1 := fun j => by rw [h]

theorem BufferInv_of_SameShapes {w w1 : World} (h : SameShapes w w1) (hw : BufferInv w) :
    BufferInv w1 := by
  intro j s1 h1
  have hj := h j
  rw [h1] at hj
  cases hs : w.surfaces[j]? with
  | none => rw [hs] at hj; cases hj
  | some s =>
    rw [hs] at hj
    have e : shapeOf s1 = shapeOf s := Option.some.inj hj
    have hinv := hw j s hs
    simp only [shapeOf, Prod.mk.injEq] at e
    rw [e.1, e.2.1, e.2.2]
    exact hinv

theorem SameShapes_update (w : World) (i : Nat) (f : DirectDrawSurface → DirectDrawSurface)
    (hf : ∀ x, w.surfaces[i]? = some x → shapeOf (f x) = shapeOf x) :
    SameShapes w (w.update i f) := by
  intro j
  rw [update_get]
  by_cases h : i = j
  · subst h
    rw [if_pos rfl]
    cases hx : w.surfaces[i]? with
    | none => rfl
    | some x => simp [hf x hx]
  · rw [if_neg h]

theorem SameShapes_set (w w1 : World) (i : Nat) (x y : DirectDrawSurface)
    (hx : w.surfaces[i]? = some x) (hsurf : w1.surfaces = w.surfaces.set i y)
    (hy : shapeOf y = shapeOf x) : SameShapes w w1 := by
  have e : w1.surfaces = (w.update i (fun _ => y)).surfaces := by
    simp [World.update, hx, hsurf]
  exact SameShapes_trans
    (SameShapes_update w i _ (fun x1 hx1 => by rw [hx] at hx1; cases hx1; exact hy))
    (SameShapes_of_surfaces_eq e)

theorem Lock_shapes (w : World) (self : Nat) (r : HRESULT) (d : Option DDSURFACEDESC)
    (w1 : World) (h : Lock w self = some (r, d, w1)) : SameShapes w w1 := by
  unfold Lock at h
  cases hs : w.surfaces[self]? with
  | none => simp [hs] at h
  | some s =>
    by_cases hl : s.m_locked = true
    · simp [hs, hl] at h
      obtain ⟨-, -, h3⟩ := h
      subst h3
      exact SameShapes_refl _
    · simp [hs, hl] at h
      obtain ⟨-, -, h3⟩ := h
      subst h3
      exact SameShapes_set w _ self s _ hs rfl rfl

theorem Unlock_shapes (w : World) (self : Nat) (r : HRESULT) (w1 : World)
    (h : Unlock w self = some (r, w1)) : SameShapes w w1 := by
  unfold Unlock at h
  cases hs : w.surfaces[self]? with
  | none => simp [hs] at h
  | some s =>
    by_cases hl : s.m_locked = true
    · by_cases hp : (hasFlag s.m_desc.ddsCaps.dwCaps DDSCAPS_PRIMARYSURFACE
          && !hasFlag s.m_desc.ddsCaps.dwCaps DDSCAPS_FLIP) = true
      · simp only [hs, hl, hp, Bool.not_true, Bool.false_eq_true, if_false, if_true,
          Option.map_eq_some'] at h
        obtain ⟨s2, hfix, h2⟩ := h
        cases h2
        refine SameShapes_set w _ self s s2 hs rfl ?_
        unfold Unlock.fixLines at hfix
        split at hfix
        · rw [Option.map_eq_some'] at hfix
          obtain ⟨b, hb, hs2⟩ := hfix
          subst hs2
          simp [shapeOf, fixBlackLines_length _ _ _ _ hb]
        · cases hfix
          rfl
      · simp [hs, hl, hp] at h
        obtain ⟨-, h3⟩ := h
        subst h3
        exact SameShapes_set w _ self s _ hs rfl rfl
    · simp [hs, hl] at h
      obtain ⟨-, h3⟩ := h
      subst h3
      exact SameShapes_refl _

theorem clear_shapes (w : World) (self color : Nat) (w1 : World)
    (h : clear w self color = some w1) : SameShapes w w1 := by
  obtain ⟨s, buf, hs, hcb, h1, hother⟩ := clear_some w self color w1 h
  intro j
  by_cases hj : j = self
  · subst hj
    rw [h1, hs]
    simp [shapeOf, clearBuffer_length _ _ _ _ hcb]
  · rw [hother j hj]

theorem AddAttachedSurface_shapes (w : World) (self : Nat) (a : Option Nat) (r : HRESULT)
    (w1 : World) (h : AddAttachedSurface w self a = some (r, w1)) : SameShapes w w1 := by
  unfold AddAttachedSurface at h
  cases a with
  | none =>
    simp only at h
    split at h
    · cases h; exact SameShapes_refl _
    · cases h
  | some ps =>
    simp only at h
    split at h
    · split at h
      · cases h
        exact SameShapes_update w self _ (fun _ _ => rfl)
      · split at h
        · cases h
          exact SameShapes_update w self _ (fun _ _ => rfl)
        · cases h
          exact SameShapes_refl _
    · cases h

theorem Blt_copy_shapes (w : World) (self src : Nat) (dr sr : Option Blitter.Rect)
    (w1 : World) (h : Blt.copy w self dr src sr = some w1) : SameShapes w w1 := by
  cases hs : w.surfaces[self]? with
  | none =>
    simp [Blt.copy, update_get, hs] at h
  | some s =>
    cases hp : w.surfaces[src]? with
    | none =>
      by_cases hself : self = src
      · subst hself
        rw [hs] at hp
        cases hp
      · simp [Blt.copy, update_get, hs, hp, hself] at h
    | some p =>
      obtain ⟨w2, e, h2, hother, -⟩ := Blt_copy_spec w self src dr sr s p hs hp
      rw [e] at h
      cases h
      intro j
      by_cases hj : j = self
      · subst hj
        rw [h2, hs]
        simp [shapeOf, blit_length, Blt.dstImage]
      · rw [hother j hj]

theorem Blt_fill_shapes (r : Bool) (w : World) (self flags color : Nat) (res : HRESULT)
    (w1 : World) (h : Blt.fill r w self flags color = some (res, w1)) : SameShapes w w1 := by
  unfold Blt.fill at h
  cases hs : w.surfaces[self]? with
  | none => simp [hs] at h
  | some s =>
    simp only [hs] at h
    split at h
    · cases h
      exact SameShapes_refl _
    · rw [Option.bind_eq_some] at h
      obtain ⟨wa, ha, h⟩ := h
      rw [Option.bind_eq_some] at h
      obtain ⟨wb, hb, h⟩ := h
      cases h
      have h1 : SameShapes w wa := by
        unfold Blt.colorFill at ha
        split at ha
        · exact clear_shapes _ _ _ _ ha
        · cases ha
          exact SameShapes_refl _
      have h2 : SameShapes wa w1 := by
        unfold Blt.depthFill at hb
        split at hb
        · cases hb
        · split at hb
          · split at hb
            · exact clear_shapes _ _ _ _ hb
            · cases hb
              exact SameShapes_refl _
          · cases hb
            exact SameShapes_refl _
      exact SameShapes_trans h1 h2

theorem BltWith_shapes (r : Bool) (w : World) (self : Nat) (dr : Option Blitter.Rect)
    (src : Option Nat) (sr : Option Blitter.Rect) (flags color : Nat) (res : HRESULT)
    (w1 : World) (h : BltWith r w self dr src sr flags color = some (res, w1)) :
    SameShapes w w1 := by
  unfold BltWith at h
  cases hs : w.surfaces[self]? with
  | none => simp [hs] at h
  | some s =>
    simp only [hs] at h
    split at h
    · cases h
      exact SameShapes_refl _
    · rw [Option.bind_eq_some] at h
      obtain ⟨wa, ha, h⟩ := h
      have h1 : SameShapes w wa := by
        unfold Blt.copyIfSource at ha
        split at ha
        · exact Blt_copy_shapes _ _ _ _ _ _ ha
        · cases ha
          exact SameShapes_refl _
      have h2 := Blt_fill_shapes _ _ _ _ _ _ _ h
      exact SameShapes_trans h1 (SameShapes_trans (SameShapes_of_surfaces_eq rfl) h2)

theorem BufferInv_append (w w1 : World) (new : List DirectDrawSurface)
    (hsurf : w1.surfaces = w.surfaces ++ new) (hw : BufferInv w)
    (hnew : ∀ s ∈ new, s.m_buffer.length = s.m_desc.lPitch * s.m_desc.dwHeight) :
    BufferInv w1 := by
  intro j s hj
  have hmem : s ∈ w.surfaces ++ new := by
    rw [← hsurf]
    exact List.getElem?_mem hj
  rcases List.mem_append.mp hmem with h | h
  · obtain ⟨n, hn⟩ := List.getElem?_of_mem h
    exact hw n s hn
  · exact hnew s h

theorem freshSurface_inv (d : DDSURFACEDESC) (back : Option Nat)
    (h : d.lPitch * d.dwHeight < 2 ^ 32) :
    (freshSurface d back).m_buffer.length
      = (freshSurface d back).m_desc.lPitch * (freshSurface d back).m_desc.dwHeight := by
  have h2 : d.lPitch * d.dwHeight < 4294967296 := h
  simp [freshSurface, Nat.mod_eq_of_lt h2]

theorem construct_inv (fuel : Nat) (w : World) (desc : DDSURFACEDESC) (w1 : World) (p : Nat)
    (h : construct fuel w desc = some (w1, p)) (hw : BufferInv w)
    (hlt : (resolveDesc w.displayDesc desc).lPitch * (resolveDesc w.displayDesc desc).dwHeight
      < 2 ^ 32) : BufferInv w1 := by
  have hr := resolveDesc_flags w.displayDesc desc
  have hb := backBufferDescOf_flags (resolveDesc w.displayDesc desc)
  have hres : resolveDesc w.displayDesc (backBufferDescOf (resolveDesc w.displayDesc desc))
      = { backBufferDescOf (resolveDesc w.displayDesc desc) with lpSurface := none } :=
    resolveDesc_of_resolved _ _ (hb.1.trans hr.1) (hb.2.1.trans hr.2.1)
      (hb.2.2.1.trans hr.2.2.1)
  match fuel, h with
  | 0, h => simp [construct] at h
  | 1, h =>
    rw [construct] at h
    split at h
    · simp [construct] at h
    · cases h
      refine BufferInv_append w _ [_] rfl hw ?_
      intro s hs
      rw [List.mem_singleton] at hs
      subst hs
      exact freshSurface_inv _ _ hlt
  | n + 2, h =>
    rw [construct_eq] at h
    split at h
    · cases h
      refine BufferInv_append w _ [_, _] rfl hw ?_
      intro s hs
      simp only [List.mem_cons, List.mem_singleton, List.not_mem_nil, or_false] at hs
      rcases hs with hs | hs
      · subst hs
        rw [hres]
        exact freshSurface_inv _ _ hlt
      · subst hs
        exact freshSurface_inv _ _ hlt
    · cases h
      refine BufferInv_append w _ [_] rfl hw ?_
      intro s hs
      rw [List.mem_singleton] at hs
      subst hs
      exact freshSurface_inv _ _ hlt

/-- A flip keeps the invariant when the two buffers it exchanges have the same
length. -/
theorem Flip_inv (w : World) (self b : Nat) (s k : DirectDrawSurface) (r : HRESULT)
    (w1 : World) (h : Flip w self = some (r, w1)) (hs : w.surfaces[self]? = some s)
    (hb : s.m_backBuffer = some b) (hk : w.surfaces[b]? = some k)
    (hlen : s.m_buffer.length = k.m_buffer.length) (hw : BufferInv w) : BufferInv w1 := by
  by_cases hflip : hasFlag s.m_desc.ddsCaps.dwCaps DDSCAPS_FLIP = true
  swap
  · simp [Flip, hs, hflip] at h
    obtain ⟨-, h2⟩ := h
    subst h2
    exact hw
  by_cases hfront : hasFlag s.m_desc.ddsCaps.dwCaps DDSCAPS_FRONTBUFFER = true
  swap
  · simp [Flip, hs, hfront] at h
    obtain ⟨-, h2⟩ := h
    subst h2
    exact hw
  rw [Flip_eq_body w self b s hs hflip hfront hb] at h
  by_cases hne : self = b
  · subst hne
    obtain ⟨w2, e, h2, hf, -⟩ := FlipBody_self false
      ({ w with m_context := { w.m_context with m_render := false } }.log Call.isRendered)
      self s hs
    rw [e] at h
    cases h
    intro j x hx
    by_cases hj : j = self
    · subst hj
      rw [h2] at hx
      cases hx
      exact hw j s hs
    · rw [hf.1 j hj hj] at hx
      exact hw j x hx
  · obtain ⟨w2, e, h2, h3, hf, -⟩ := FlipBody_ne false
      ({ w with m_context := { w.m_context with m_render := false } }.log Call.isRendered)
      self b s k hne hs hk
    rw [e] at h
    cases h
    intro j x hx
    by_cases hj : j = self
    · subst hj
      rw [h2] at hx
      cases hx
      show k.m_buffer.length = _
      rw [← hlen]
      exact hw j s hs
    · by_cases hjb : j = b
      · subst hjb
        rw [h3] at hx
        cases hx
        show s.m_buffer.length = _
        rw [hlen]
        exact hw j k hk
      · rw [hf.1 j hj hjb] at hx
        exact hw j x hx

/-- C19, as stated, fails. A 1 by 1 front buffer (4 bytes) and a 1 by 2 surface
(8 bytes) both satisfy the invariant after creation and after the attach; after
the flip the first has pitch 4, height 1 and 8 bytes, the second pitch 4,
height 2 and 4 bytes. At creation already, a pitch of 2^16 with 2^16 rows
yields an empty buffer, the `DWORD` product being 0. -/
theorem Flip_attached_breaks_buffer_length :
    flipAttachedShapes
      = some (HRESULT.DD_OK, [(4, 1, 4), (4, 2, 8)], HRESULT.DD_OK, [(4, 1, 8), (4, 2, 4)]) ∧
    (construct 2 emptyWorld hugeDesc).map (fun p => p.1.surfaces.map shapeOf)
      = some [(2 ^ 16, 2 ^ 16, 0)] := by
  constructor <;> rfl

/-- C19, amended. Buffer length = pitch * height holds for every surface of the
world after a construction when it held before and the resolved pitch times the
resolved height is below 2^32; it is kept by `Lock`, `Unlock`, `Blt`, `clear` and
`AddAttachedSurface`, each of which leaves every pitch, height and buffer
length as it was; it is kept by `Flip` when the front buffer and its back
buffer have buffers of the same length. -/
theorem BufferInv_preserved :
    (∀ fuel w desc w1 p, construct fuel w desc = some (w1, p) → BufferInv w →
      (resolveDesc w.displayDesc desc).lPitch * (resolveDesc w.displayDesc desc).dwHeight
        < 2 ^ 32 → BufferInv w1) ∧
    (∀ w self r d w1, Lock w self = some (r, d, w1) → SameShapes w w1 ∧
      (BufferInv w → BufferInv w1)) ∧
    (∀ w self r w1, Unlock w self = some (r, w1) → SameShapes w w1 ∧
      (BufferInv w → BufferInv w1)) ∧
    (∀ rendered w self dr src sr flags color r w1,
      BltWith rendered w self dr src sr flags color = some (r, w1) → SameShapes w w1 ∧
      (BufferInv w → BufferInv w1)) ∧
    (∀ w self color w1, clear w self color = some w1 → SameShapes w w1 ∧
      (BufferInv w → BufferInv w1)) ∧
    (∀ w self a r w1, AddAttachedSurface w self a = some (r, w1) → SameShapes w w1 ∧
      (BufferInv w → BufferInv w1)) ∧
    (∀ w self b s k r w1, Flip w self = some (r, w1) → w.surfaces[self]? = some s →
      s.m_backBuffer = some b → w.surfaces[b]? = some k →
      s.m_buffer.length = k.m_buffer.length → BufferInv w → BufferInv w1) := by
  refine ⟨?_, ?_, ?_, ?_, ?_, ?_, ?_⟩
  · intro fuel w desc w1 p h hw hlt
    exact construct_inv fuel w desc w1 p h hw hlt
  · intro w self r d w1 h
    exact ⟨Lock_shapes w self r d w1 h, BufferInv_of_SameShapes (Lock_shapes w self r d w1 h)⟩
  · intro w self r w1 h
    exact ⟨Unlock_shapes w self r w1 h, BufferInv_of_SameShapes (Unlock_shapes w self r w1 h)⟩
  · intro rendered w self dr src sr flags color r w1 h
    exact ⟨BltWith_shapes rendered w self dr src sr flags color r w1 h,
      BufferInv_of_SameShapes (BltWith_shapes rendered w self dr src sr flags color r w1 h)⟩
  · intro w self color w1 h
    exact ⟨clear_shapes w self color w1 h, BufferInv_of_SameShapes (clear_shapes w self color w1 h)⟩
  · intro w self a r w1 h
    exact ⟨AddAttachedSurface_shapes w self a r w1 h,
      BufferInv_of_SameShapes (AddAttachedSurface_shapes w self a r w1 h)⟩
  · intro w self b s k r w1 h hs hb hk hlen hw
    exact Flip_inv w self b s k r w1 h hs hb hk hlen hw

theorem flipWorld_inv : BufferInv (flipWorld false false true false) := by
  intro j s h
  match j, h with
  | 0, h => cases h; rfl
  | 1, h => cases h; rfl
  | n + 2, h => simp [flipWorld] at h

theorem BufferInv_preserved_witness :
    BufferInv (flipWorld false false true false) ∧
    ∃ w1, Flip (flipWorld false false true false) 0 = some (HRESULT.DD_OK, w1) ∧
      BufferInv w1 := by
  obtain ⟨w1, e⟩ : ∃ w1, Flip (flipWorld false false true false) 0
      = some (HRESULT.DD_OK, w1) := ⟨_, rfl⟩
  exact ⟨flipWorld_inv, w1, e,
    BufferInv_preserved.2.2.2.2.2.2 (flipWorld false false true false) 0 1 _ _ _ w1 e
      rfl rfl rfl rfl flipWorld_inv⟩

/-! ## Bounds of the scanline copy (C21) -/

/-- On a buffer of `pitch * height` bytes (the product below 2^32) the loop of
lines 531-536 stays inside the buffer exactly when the pitch is 0 or the height
is even. -/
theorem fixBlackLinesInBounds_iff (pitch height : Nat) (hlt : pitch * height < 2 ^ 32) :
    fixBlackLinesInBounds pitch height (pitch * height) = true ↔
      (pitch = 0 ∨ height % 2 = 0) := by
  unfold fixBlackLinesInBounds
  rw [List.all_eq_true]
  constructor
  · intro h
    by_cases hp : pitch = 0
    · exact Or.inl hp
    · right
      by_contra hodd
      have hk : height / 2 ∈ List.range ((height + 1) / 2) := by
        rw [List.mem_range]; omega
      have h1 := h (height / 2) hk
      simp only [Bool.and_eq_true, decide_eq_true_eq] at h1
      have e : (2 * (height / 2) + 1) = height := by omega
      rw [e, Nat.mul_comm height pitch, Nat.mod_eq_of_lt hlt] at h1
      omega
  · intro h k hk
    rw [List.mem_range] at hk
    simp only [Bool.and_eq_true, decide_eq_true_eq]
    rcases h with h | h
    · subst h
      simp
    · have hk2 : 2 * k + 2 ≤ height := by omega
      have hmul : (2 * k + 2) * pitch ≤ height * pitch := Nat.mul_le_mul_right pitch hk2
      have e1 : (2 * k + 2) * pitch = 2 * k * pitch + pitch + pitch := by ring
      have e2 : (2 * k + 1) * pitch = 2 * k * pitch + pitch := by ring
      have m1 : 2 * k * pitch % 2 ^ 32 ≤ 2 * k * pitch := Nat.mod_le _ _
      have m2 : (2 * k + 1) * pitch % 2 ^ 32 ≤ (2 * k + 1) * pitch := Nat.mod_le _ _
      rw [Nat.mul_comm pitch height]
      constructor <;> omega

/-- C21. On the locked stand-alone primary surface of `oddHeightWorld` (height 1,
pitch 2, buffer of 2 = pitch * height bytes, game identity "tombati") `Unlock`
runs the scanline copy, and the copy does not stay inside the buffer: for the
even row 0 the destination row starts at offset 2 and ends at offset 4, past
the 2 bytes of the buffer; `Unlock` has no result. -/
theorem Unlock_tomb_odd_height_out_of_bounds :
    (oddHeightWorld.surfaces[0]?).map
        (fun s => (s.m_locked, hasFlag s.m_desc.ddsCaps.dwCaps DDSCAPS_PRIMARYSURFACE,
          hasFlag s.m_desc.ddsCaps.dwCaps DDSCAPS_FLIP, s.m_desc.lPitch, s.m_desc.dwHeight,
          s.m_buffer.length))
      = some (true, true, false, 2, 1, 2) ∧
    isTombGame oddHeightWorld.m_context = true ∧
    fixBlackLinesInBounds 2 1 2 = false ∧
    ¬ ((0 + 1) * 2 + 2 ≤ [1, 2].length) ∧
    Unlock oddHeightWorld 0 = none := by
  refine ⟨by decide, by decide, by decide, by decide, by decide⟩

/-! ## The viewport (C22) -/

theorem usub_eq (a b : Nat) (hba : b ≤ a) (ha : a < 2 ^ 32) : usub a b = a - b := by
  unfold usub
  omega

/-- C22. When the two products `m_height * window width` and `m_width * window
height` are below 2^32, `setupViewport` does not divide by zero and the
viewport it hands to `glViewport` lies inside the window; at least one of the
two axes keeps the window's extent, and on each axis the offset is half of what
the viewport leaves free (0 on an axis that is not shrunk). -/
theorem setupViewport_inside_window (c : Context)
    (h1 : c.m_height * c.getWindowWidth < 2 ^ 32)
    (h2 : c.m_width * c.getWindowHeight < 2 ^ 32) :
    ∃ vp, c.setupViewport = some vp ∧
      vp.x + vp.width ≤ c.getWindowWidth ∧ vp.y + vp.height ≤ c.getWindowHeight ∧
      (vp.width = c.getWindowWidth ∧ vp.x = 0 ∨ vp.height = c.getWindowHeight ∧ vp.y = 0) ∧
      vp.x = (c.getWindowWidth - vp.width) / 2 ∧
      vp.y = (c.getWindowHeight - vp.height) / 2 := by
  unfold Context.setupViewport
  simp only [Nat.mod_eq_of_lt h1, Nat.mod_eq_of_lt h2]
  by_cases hgt : c.m_height * c.getWindowWidth > c.m_width * c.getWindowHeight
  · have hne : c.m_height ≠ 0 := by
      intro h0
      rw [h0] at hgt
      simp at hgt
    have hq : c.m_width * c.getWindowHeight / c.m_height ≤ c.getWindowWidth :=
      Nat.div_le_of_le_mul (Nat.le_of_lt hgt)
    have hW : c.getWindowWidth < 2 ^ 32 :=
      Nat.lt_of_le_of_lt (Nat.le_mul_of_pos_left _ (Nat.pos_of_ne_zero hne)) h1
    rw [if_pos hgt]
    simp only [udiv, if_neg hne]
    refine ⟨_, rfl, ?_, ?_, Or.inr ⟨rfl, rfl⟩, ?_, ?_⟩
    · simp only [usub_eq _ _ hq hW]
      omega
    · simp
    · simp only [usub_eq _ _ hq hW]
    · simp
  · rw [if_neg hgt]
    by_cases hlt : c.m_height * c.getWindowWidth < c.m_width * c.getWindowHeight
    · have hne : c.m_width ≠ 0 := by
        intro h0
        rw [h0] at hlt
        simp at hlt
      have hq : c.m_height * c.getWindowWidth / c.m_width ≤ c.getWindowHeight :=
        Nat.div_le_of_le_mul (Nat.le_of_lt hlt)
      have hH : c.getWindowHeight < 2 ^ 32 :=
        Nat.lt_of_le_of_lt (Nat.le_mul_of_pos_left _ (Nat.pos_of_ne_zero hne)) h2
      rw [if_pos hlt]
      simp only [udiv, if_neg hne]
      refine ⟨_, rfl, ?_, ?_, Or.inl ⟨rfl, rfl⟩, ?_, ?_⟩
      · simp
      · simp only [usub_eq _ _ hq hH]
        omega
      · simp
      · simp only [usub_eq _ _ hq hH]
    · rw [if_neg hlt]
      exact ⟨_, rfl, by simp, by simp, Or.inl ⟨rfl, rfl⟩, by simp, by simp⟩

theorem setupViewport_inside_window_witness :
    ∃ vp, (windowCtx 1920 1080).setupViewport = some vp ∧
      vp.x + vp.width ≤ (windowCtx 1920 1080).getWindowWidth ∧
      vp.y + vp.height ≤ (windowCtx 1920 1080).getWindowHeight ∧
      (vp.width = (windowCtx 1920 1080).getWindowWidth ∧ vp.x = 0 ∨
        vp.height = (windowCtx 1920 1080).getWindowHeight ∧ vp.y = 0) ∧
      vp.x = ((windowCtx 1920 1080).getWindowWidth - vp.width) / 2 ∧
      vp.y = ((windowCtx 1920 1080).getWindowHeight - vp.height) / 2 :=
  setupViewport_inside_window (windowCtx 1920 1080) (by decide) (by decide)

end glrage
